import Mathlib

/-! Shallow embedding of the gasim artificial-life simulation (src/main.c).

The C program is a single-threaded grid simulation.  Every function of the
core (everything except SDL rendering and the event loop) is translated here
into a pure Lean definition:

* machine integers become `Int` / `Nat` (no overflow is reachable at the
  values involved: scores stay far below 2^31, coordinates are small);
* the drand48/lrand48/mrand48 stream is modelled by an oracle `Rand` of
  value streams together with an explicit position counter that every draw
  advances by one;
* the two unbounded `while (true)` loops (`find_nearby_empty` and the retry
  loop in `relocate_food`) are modelled with an explicit fuel parameter,
  `none` meaning that the C code has not terminated (or has died on a failed
  `assert`) within that bound;
* C `assert` failures and `abort()` are modelled as `none`.

Entities carry one ghost field `acts`, an action counter that the C struct
does not have.  It is the per-tick per-entity instrumentation counter that
the specification's testable-properties section asks for; no modelled code
reads it, it is only incremented at the single point where an entity passes
the update-tag check and is processed.
-/

namespace Gasim

/-- Simulation constants from the `#define` block of src/main.c. -/
def GENE_COUNT : Nat := 16

def CELL_SCARCITY : Nat := 48

def FOOD_SCARCITY : Nat := 11

def CLUMP_COUNT : Nat := 30

/-- MUTATION_RATE 0.03, as the exact rational 3/100 (given by its reduced
numerator and denominator so that comparisons evaluate by reduction). -/
def MUTATION_RATE : ℚ := ⟨3, 100, by norm_num, by norm_num⟩

/-- The 0.05 clump-drift probability of `relocate_food`, as the exact
rational 1/20. -/
def CLUMP_DRIFT_PROB : ℚ := ⟨1, 20, by norm_num, by norm_num⟩

def CELL_START_SCORE : Int := 250

def FOOD_SCORE : Int := 250

def CELL_MITOSIS_THRESHOLD : Int := 1000

/-- The `FoodSpawn` enum. -/
inductive FoodSpawn where
  | clump
  | random
deriving DecidableEq

/-- Global `food_spawn`, initialised to `FOOD_SPAWN_CLUMP` and never changed. -/
def food_spawn : FoodSpawn := .clump

/-- The `FoodRebirth` enum. -/
inductive FoodRebirth where
  | somewhere
  | nearby
deriving DecidableEq

/-- Global `food_rebirth`, initialised to `FOOD_REBIRTH_SOMEWHERE` and never changed. -/
def food_rebirth : FoodRebirth := .somewhere

/-- The `Action` enum: MOVE_FORWARD = 0, TURN_LEFT = 1, TURN_RIGHT = 2, MOVE_BACKWARD = 3. -/
inductive Action where
  | moveForward
  | turnLeft
  | turnRight
  | moveBackward
deriving DecidableEq

/-- The numeric value of the enum constant `ACTION_MOVE_FORWARD` (it is the
first enumerator, hence 0).  Kept as a named constant because the source uses
the enum constant itself, not the `Action` of a response, in the move-step
ternary at line 470. -/
def ACTION_MOVE_FORWARD_CONST : Nat := 0

/-- Decode `lrand48() % ACTION_MAX` into an `Action`. -/
def Action.decode (n : Nat) : Action :=
  match n % 4 with
  | 0 => .moveForward
  | 1 => .turnLeft
  | 2 => .turnRight
  | _ => .moveBackward

/-- The `action_costs[ACTION_MAX] = {8, 3, 3, 5}`. -/
def action_costs : Action → Int
  | .moveForward => 8
  | .turnLeft => 3
  | .turnRight => 3
  | .moveBackward => 5

/-- The `Situation` enum: EMPTY = 0, FOOD = 1, LIFE = 2, WALL = 3. -/
inductive Situation where
  | empty
  | food
  | life
  | wall
deriving DecidableEq, Fintype

/-- The four situations in C enumeration order; `chromosome_mutate` walks the
response array in this order. -/
def situation_order : List Situation := [.empty, .food, .life, .wall]

/-- The `Facing` enum, ordered so that +1 is a right turn: NORTH=0, EAST=1, SOUTH=2, WEST=3. -/
inductive Facing where
  | north
  | east
  | south
  | west
deriving DecidableEq

def Facing.toNat : Facing → Nat
  | .north => 0
  | .east => 1
  | .south => 2
  | .west => 3

def Facing.decode (n : Nat) : Facing :=
  match n % 4 with
  | 0 => .north
  | 1 => .east
  | 2 => .south
  | _ => .west

/-- The `facing_turn`: a negative turn is first multiplied by -3 (so -1 becomes 3),
then the facing is advanced modulo FACING_MAX. -/
def facing_turn (facing : Facing) (turn : Int) : Facing :=
  let t : Int := if turn < 0 then turn * (-3) else turn
  Facing.decode ((facing.toNat + t.toNat) % 4)

/-- The `Response`: an action together with the next FSM state. -/
structure Response where
  action : Action
  next_state : Fin 16
deriving DecidableEq

/-- The `Gene`: one response per situation (the C array indexed by `Situation`). -/
structure Gene where
  responses : Situation → Response

/-- The `Chromosome`: 16 genes (the C array indexed by the FSM state). -/
structure Chromosome where
  genes : Fin 16 → Gene

/-- A 2-D grid coordinate, C `Coord` (a pair of ints). -/
structure Coord where
  x : Int
  y : Int
deriving DecidableEq

/-- Oracle for the seeded drand48 pseudo-random stream.  The C program draws
from a single underlying generator; each call to `lrand48`, `mrand48` or
`drand48` advances it by one step.  We model the generator state as a `Nat`
counter and expose one value stream per draw kind; nothing in the development
depends on relations between the streams, only on the sequence of drawn
values, so this abstraction is faithful. -/
structure Rand where
  /-- values returned by successive `lrand48()` calls (always non-negative in C) -/
  lrands : Nat → Nat
  /-- values returned by successive `mrand48()` calls (signed) -/
  mrands : Nat → Int
  /-- values returned by successive `drand48()` calls, in the interval from 0 up to 1 -/
  drands : Nat → ℚ

/-- The `random_int(min, max)`: `mrand48() % range` with C truncating `%`, then a
fixup adding `range` when negative, then shifted by `min`.  Takes and returns
the stream position. -/
def random_int (r : Rand) (k : Nat) (min max : Int) : Int × Nat :=
  let range : Int := max - min
  let value : Int := (r.mrands k).tmod range
  let value : Int := if value < 0 then value + range else value
  (value + min, k + 1)

/-- The `perturb_coord`: jitter both coordinates by independent draws from
`random_int(-1, 2)`. -/
def perturb_coord (r : Rand) (c : Coord) (k : Nat) : Coord × Nat :=
  let dx := random_int r k (-1) 2
  let dy := random_int r dx.2 (-1) 2
  (⟨c.x + dx.1, c.y + dy.1⟩, dy.2)

/-- The `chromosome_mutate` body for a single `Response`: with probability
MUTATION_RATE replace the action by a fresh `lrand48() % ACTION_MAX` draw,
and independently with probability MUTATION_RATE replace the next state by a
fresh `lrand48() % GENE_COUNT` draw.  `lrand48` is only called when the
corresponding `drand48` test fires, exactly as in C. -/
def mutate_response (r : Rand) (resp : Response) (k : Nat) : Response × Nat :=
  let step1 : Action × Nat :=
    if r.drands k < MUTATION_RATE then (Action.decode (r.lrands (k + 1) % 4), k + 2)
    else (resp.action, k + 1)
  let step2 : Fin 16 × Nat :=
    if r.drands step1.2 < MUTATION_RATE then
      (⟨r.lrands (step1.2 + 1) % 16, Nat.mod_lt _ (by omega)⟩, step1.2 + 2)
    else (resp.next_state, step1.2 + 1)
  (⟨step1.1, step2.1⟩, step2.2)

/-- Mutate one gene: walk its responses in situation-enum order. -/
def mutate_gene (r : Rand) : List Situation → Gene → Nat → Gene × Nat
  | [], g, k => (g, k)
  | s :: rest, g, k =>
    let t := mutate_response r (g.responses s) k
    mutate_gene r rest ⟨fun s' => if s' = s then t.1 else g.responses s'⟩ t.2

/-- Mutate the genes with indices in the given list, in order. -/
def mutate_genes (r : Rand) : List (Fin 16) → Chromosome → Nat → Chromosome × Nat
  | [], c, k => (c, k)
  | i :: rest, c, k =>
    let t := mutate_gene r situation_order (c.genes i) k
    mutate_genes r rest ⟨fun j => if j = i then t.1 else c.genes j⟩ t.2

/-- The `chromosome_mutate`: for every state 0..15 and situation 0..3 in order,
independently mutate action and next state with probability MUTATION_RATE. -/
def chromosome_mutate (r : Rand) (c : Chromosome) (k : Nat) : Chromosome × Nat :=
  mutate_genes r (List.finRange 16) c k

/-- The numeric enum value of an `Action` (its position in the C enum). -/
def Action.index : Action → Nat
  | .moveForward => 0
  | .turnLeft => 1
  | .turnRight => 2
  | .moveBackward => 3

/-- The `cell_get_color` applied directly to a chromosome: pack each gene's four
responses into 6-bit fields of a 24-bit word and XOR the 16 words together. -/
def chromosome_color (c : Chromosome) : Nat :=
  (List.finRange 16).foldl
    (fun value g =>
      let series := situation_order.foldl
        (fun series s =>
          let resp := (c.genes g).responses s
          (series <<< 6) ||| (resp.action.index * 16 + resp.next_state.val % 16))
        0
      value ^^^ series)
    0

/-- The `chromosome_big_square`, the deterministic seed chromosome.  Genes 0..14
are built with range designators: EMPTY and FOOD answer (MOVE_FORWARD,
gene+1), LIFE and WALL answer (TURN_LEFT, 0).  Gene 15 is built from the
initializer list containing only a response for slot 0 (EMPTY), so the
remaining slots are zero-initialised by C semantics, which yields
(ACTION_MOVE_FORWARD, 0) for LIFE and WALL; the FOOD slot is then overwritten
with (MOVE_FORWARD, 15). -/
def chromosome_big_square : Chromosome :=
  ⟨fun g =>
    if h : g.val < 15 then
      ⟨fun s =>
        match s with
        | .empty => ⟨.moveForward, ⟨g.val + 1, by omega⟩⟩
        | .food => ⟨.moveForward, ⟨g.val + 1, by omega⟩⟩
        | .life => ⟨.turnLeft, 0⟩
        | .wall => ⟨.turnLeft, 0⟩⟩
    else
      ⟨fun s =>
        match s with
        | .empty => ⟨.turnLeft, 0⟩
        | .food => ⟨.moveForward, 15⟩
        | .life => ⟨.moveForward, 0⟩
        | .wall => ⟨.moveForward, 0⟩⟩⟩

/-- The `Cell` struct.  Field order and meaning follow C: the embedded `Entity`
header contributes `last_update_color`; `state`, `score`, `chromosome`,
`facing`, `color` are the cell's own fields.  `acts` is the ghost
instrumentation counter described in the file header (not in the C struct). -/
structure Cell where
  last_update_color : Int
  acts : Nat
  state : Fin 16
  score : Int
  chromosome : Chromosome
  facing : Facing
  color : Nat

/-- The `Food` struct: entity header plus the clump affiliation (-1 = none). -/
structure Food where
  last_update_color : Int
  acts : Nat
  clump : Int

/-- An occupied grid slot owns either a cell or a food item.  (The C
`ENTITY_TYPE_NONE` case corresponds to an empty slot, `Option.none` here.) -/
inductive Entity where
  | cell (c : Cell)
  | food (f : Food)

/-- The update tag of an entity (C `entity->last_update_color`). -/
def Entity.last_update_color : Entity → Int
  | .cell c => c.last_update_color
  | .food f => f.last_update_color

/-- Ghost accessor for the instrumentation counter. -/
def Entity.acts : Entity → Nat
  | .cell c => c.acts
  | .food f => f.acts

/-- Lines 424-427 of `entity_update`: store the tick tag into the entity.
The ghost counter is incremented here — this is the single program point at
which an entity is committed to being processed in the current pass. -/
def Entity.stamp : Entity → Int → Entity
  | .cell c, t => .cell { c with last_update_color := t, acts := c.acts + 1 }
  | .food f, t => .food { f with last_update_color := t, acts := f.acts + 1 }

/-- The `cell_get_color`: the 24-bit XOR fingerprint of the chromosome the cell
carries at the moment of the call. -/
def cell_get_color (cell : Cell) : Nat :=
  chromosome_color cell.chromosome

/-- The `facing_random`: a static counter, pre-incremented then reduced mod
FACING_MAX.  The counter is threaded explicitly. -/
def facing_random (fc : Nat) : Facing × Nat :=
  (Facing.decode ((fc + 1) % 4), fc + 1)

/-- The `cell_new(parent)`.  With a parent: inherit the update tag, copy and
mutate the chromosome, face opposite the parent, start at CELL_START_SCORE.
Without a parent: tag -1, mutated copy of `chromosome_big_square` (the
`chromosome_random()` call is commented out in the source), random facing,
CELL_START_SCORE.  `state` is 0 by the zero-initialising compound literal.
The color is computed last, from the chromosome the new cell carries.
Returns (cell, stream position, facing counter). -/
def cell_new (r : Rand) (parent : Option Cell) (k fc : Nat) : Cell × Nat × Nat :=
  match parent with
  | some p =>
    let t := chromosome_mutate r p.chromosome k
    let cell : Cell :=
      { last_update_color := p.last_update_color, acts := 0, state := 0,
        score := CELL_START_SCORE, chromosome := t.1,
        facing := facing_turn p.facing 2, color := 0 }
    ({ cell with color := cell_get_color cell }, t.2, fc)
  | none =>
    let t := chromosome_mutate r chromosome_big_square k
    let fr := facing_random fc
    let cell : Cell :=
      { last_update_color := -1, acts := 0, state := 0,
        score := CELL_START_SCORE, chromosome := t.1,
        facing := fr.1, color := 0 }
    ({ cell with color := cell_get_color cell }, t.2, fr.2)

/-- The `food_new`: the compound literal zero-initialises the update tag to 0 and
sets the clump affiliation to -1. -/
def food_new : Food :=
  { last_update_color := 0, acts := 0, clump := -1 }

/-- The `World`: dimensions, the 30 clump coordinates, and the grid.  The C grid
is a flat array of entity pointers indexed by `y * width + x`; for in-bounds
coordinates that indexing is a bijection with coordinate pairs, so the grid
is modelled as a map from coordinates to optional entities (an empty slot is
a null pointer). -/
structure World where
  width : Nat
  height : Nat
  clumps : Fin 30 → Coord
  entities : Coord → Option Entity

/-- The `coord_in_bounds`. -/
def coord_in_bounds (c : Coord) (w : World) : Bool :=
  0 ≤ c.x && c.x < (w.width : Int) && 0 ≤ c.y && c.y < (w.height : Int)

/-- Overwrite one grid slot (C: assignment through an entity pointer slot). -/
def World.set (w : World) (c : Coord) (e : Option Entity) : World :=
  { w with entities := fun c' => if c' = c then e else w.entities c' }

@[simp] theorem World.get_set_self (w : World) (c : Coord) (e : Option Entity) :
    (w.set c e).entities c = e := by
  simp [World.set]

theorem World.get_set_ne (w : World) (c c' : Coord) (e : Option Entity)
    (h : c' ≠ c) : (w.set c e).entities c' = w.entities c' := by
  simp [World.set, h]

@[simp] theorem World.set_width (w : World) (c : Coord) (e : Option Entity) :
    (w.set c e).width = w.width := rfl

@[simp] theorem World.set_height (w : World) (c : Coord) (e : Option Entity) :
    (w.set c e).height = w.height := rfl

/-- The `facing_step`: move a coordinate by `steps` slots in the given facing
(north decreases y, south increases y, west decreases x, east increases x). -/
def facing_step (facing : Facing) (coord : Coord) (steps : Int) : Coord :=
  match facing with
  | .north => ⟨coord.x, coord.y - steps⟩
  | .south => ⟨coord.x, coord.y + steps⟩
  | .west => ⟨coord.x - steps, coord.y⟩
  | .east => ⟨coord.x + steps, coord.y⟩

/-- The retry loop of `find_nearby_empty`: perturb the candidate; if the
perturbed coordinate is out of bounds the candidate is unchanged, otherwise
the walk moves there, and the loop exits exactly when that slot is empty.
The loop is unbounded in C (`while (true)`); `fuel` bounds how many
iterations we are willing to unroll, `none` standing for non-termination
within that bound. -/
def find_nearby_empty_loop (r : Rand) (w : World) :
    Nat → Coord → Nat → Option (Coord × Nat)
  | 0, _, _ => none
  | fuel + 1, coord, k =>
    let t := perturb_coord r coord k
    if coord_in_bounds t.1 w then
      match w.entities t.1 with
      | none => some (t.1, t.2)
      | some _ => find_nearby_empty_loop r w fuel t.1 t.2
    else
      find_nearby_empty_loop r w fuel coord t.2

/-- The `find_nearby_empty`: asserts that the starting coordinate is in bounds
(modelled as `none` on violation), then runs the retry loop. -/
def find_nearby_empty (r : Rand) (w : World) (fuel : Nat) (coord : Coord)
    (k : Nat) : Option (Coord × Nat) :=
  if coord_in_bounds coord w then find_nearby_empty_loop r w fuel coord k
  else none

/-- The placement step at the end of `relocate_food` (lines 402-409): find an
empty slot near the target anchor, move the food there, clear the old slot
and return.  The `while (true)` wrapper runs this body exactly once because
the body ends in `return`; the destroy-the-food fallback after the loop
(lines 410-413) is unreachable dead code and therefore has no image here. -/
def place_food (r : Rand) (fuel : Nat) (w : World) (old target : Coord)
    (k : Nat) : Option (World × Nat) :=
  match find_nearby_empty r w fuel target k with
  | none => none
  | some t => some (((w.set t.1 (w.entities old)).set old none), t.2)

/-- The `relocate_food(world, coord)`: dispatch on the spawn and rebirth policy
globals to choose the anchor coordinate, possibly re-randomising the food's
clump first (5% chance), then place the food near the anchor.  The entry
assertion that the slot holds food is modelled as `none` on violation, as is
an out-of-range clump index (undefined behavior in C). -/
def relocate_food (r : Rand) (fuel : Nat) (w : World) (coord : Coord)
    (k : Nat) : Option (World × Nat) :=
  match w.entities coord with
  | some (.food f) =>
    match food_spawn with
    | .random =>
      match food_rebirth with
      | .nearby => place_food r fuel w coord coord k
      | .somewhere =>
        let tx := random_int r k 0 (w.width : Int)
        let ty := random_int r tx.2 0 (w.height : Int)
        place_food r fuel w coord ⟨tx.1, ty.1⟩ ty.2
    | .clump =>
      if h : 0 ≤ f.clump ∧ f.clump < 30 then
        let ci : Fin 30 := ⟨f.clump.toNat, by omega⟩
        let k1 := k + 1
        let step : World × Nat :=
          if r.drands k < CLUMP_DRIFT_PROB then
            let tx := random_int r k1 0 (w.width : Int)
            let ty := random_int r tx.2 0 (w.height : Int)
            ({ w with clumps := fun j => if j = ci then ⟨tx.1, ty.1⟩ else w.clumps j },
             ty.2)
          else (w, k1)
        match food_rebirth with
        | .nearby => place_food r fuel step.1 coord (step.1.clumps ci) step.2
        | .somewhere =>
          let tj := random_int r step.2 0 30
          place_food r fuel step.1 coord
            (step.1.clumps ⟨tj.1.toNat % 30, Nat.mod_lt _ (by omega)⟩) tj.2
      else none
  | _ => none

/-- Lines 431-453 of `entity_update`: the situation perceived one step ahead
of the cell.  Out of bounds is WALL regardless of grid content; in bounds,
the faced slot's occupant (cell / food / nothing) gives LIFE / FOOD / EMPTY. -/
def perceive (w : World) (pos : Coord) (facing : Facing) : Situation :=
  let faced := facing_step facing pos 1
  if faced.x < 0 ∨ faced.x ≥ (w.width : Int) ∨ faced.y < 0 ∨ faced.y ≥ (w.height : Int)
  then .wall
  else
    match w.entities faced with
    | some (.cell _) => .life
    | some (.food _) => .food
    | none => .empty

/-- Lines 495-501 of `entity_update`, common to every action branch: deduct
the action's cost, install the response's next state, and free the cell
(emptying its current slot `loc`) exactly when the resulting score is ≤ 0. -/
def finale (w : World) (loc : Coord) (cell : Cell) (response : Response)
    (k : Nat) : Option (World × Nat) :=
  let cell :=
    { cell with score := cell.score - action_costs response.action,
                state := response.next_state }
  if cell.score ≤ 0 then some (w.set loc none, k)
  else some (w.set loc (some (.cell cell)), k)

/-- Lines 482-489 of `entity_update`: the actual slot transfer of a move.
The entry `assert(!*dest_ent_ptr)` is modelled as `none` on violation.  The
cell's ownership moves to `dest`; the vacated source slot receives either
nothing or, when the score has reached the mitosis threshold, a freshly
spawned child, in which case the parent's score is reset to CELL_START_SCORE
before the action cost is paid in `finale`. -/
def do_move (r : Rand) (w : World) (pos dest : Coord) (cell : Cell)
    (response : Response) (k : Nat) : Option (World × Nat) :=
  match w.entities dest with
  | some _ => none
  | none =>
    if cell.score ≥ CELL_MITOSIS_THRESHOLD then
      let t := cell_new r (some cell) k 0
      finale (w.set pos (some (.cell t.1))) dest
        { cell with score := CELL_START_SCORE } response t.2.1
    else
      finale (w.set pos none) dest cell response k

/-- Lines 430-494 of `entity_update`, the cell path, acting in the world
`w1` in which the cell (already stamped with the pass color) sits at
`start_pos`.  The cell perceives the situation ahead, consults its chromosome
and applies the response: turns rotate the facing; moves compute the
destination with the source's ternary `ACTION_MOVE_FORWARD ? 1 : -1`, whose
condition is the constant enum value 0, so the step is always -1 — this
constant-condition expression is reproduced verbatim.  An out-of-bounds
destination or one blocked by another cell leaves the position unchanged
(cost still paid); food at the destination is eaten (score += FOOD_SCORE)
and relocated before the move completes. -/
def cell_act (r : Rand) (fuel : Nat) (w1 : World) (start_pos : Coord)
    (cell : Cell) (k : Nat) : Option (World × Nat) :=
  let response :=
    (cell.chromosome.genes cell.state).responses (perceive w1 start_pos cell.facing)
  match response.action with
  | .turnLeft =>
    finale w1 start_pos { cell with facing := facing_turn cell.facing (-1) } response k
  | .turnRight =>
    finale w1 start_pos { cell with facing := facing_turn cell.facing 1 } response k
  | .moveForward | .moveBackward =>
    let dest := facing_step cell.facing start_pos
      (if ACTION_MOVE_FORWARD_CONST ≠ 0 then 1 else -1)
    if coord_in_bounds dest w1 then
      match w1.entities dest with
      | some (.cell _) => finale w1 start_pos cell response k
      | some (.food _) =>
        let cell2 := { cell with score := cell.score + FOOD_SCORE }
        match relocate_food r fuel w1 dest k with
        | none => none
        | some t => do_move r t.1 start_pos dest cell2 response t.2
      | none => do_move r w1 start_pos dest cell response k
    else finale w1 start_pos cell response k

/-- The `entity_update(world, start_pos, update_color)`.  An empty slot does
nothing; an entity already tagged with the pass's color is skipped; otherwise
the entity is stamped with the pass color (and, if food, that is all); a
stamped cell then runs `cell_act` in the stamped world. -/
def entity_update (r : Rand) (fuel : Nat) (w : World) (start_pos : Coord)
    (update_color : Int) (k : Nat) : Option (World × Nat) :=
  match w.entities start_pos with
  | none => some (w, k)
  | some ent =>
    if ent.last_update_color = update_color then some (w, k)
    else
      match ent.stamp update_color with
      | .food f => some (w.set start_pos (some (.food f)), k)
      | .cell cell => cell_act r fuel (w.set start_pos (some (.cell cell))) start_pos cell k

/-- One grid row of scan positions, x = 0 .. width-1. -/
def scan_row (y width : Nat) : List Coord :=
  (List.range width).map fun x => ⟨Int.ofNat x, Int.ofNat y⟩

/-- Row-major scan order of `update_world`: y outer, x inner. -/
def scan_coords (width height : Nat) : List Coord :=
  (List.range height).flatMap fun y => scan_row y width

/-- Run `entity_update` over a list of positions, threading world and stream. -/
def update_cells (r : Rand) (fuel : Nat) (turn_color : Int) :
    List Coord → World → Nat → Option (World × Nat)
  | [], w, k => some (w, k)
  | c :: rest, w, k =>
    match entity_update r fuel w c turn_color k with
    | none => none
    | some t => update_cells r fuel turn_color rest t.1 t.2

/-- The `update_world(world, turn_color)`: one full row-major pass. -/
def update_world (r : Rand) (fuel : Nat) (w : World) (turn_color : Int)
    (k : Nat) : Option (World × Nat) :=
  update_cells r fuel turn_color (scan_coords w.width w.height) w k

/-- The linear grid index `i` of `world_new`'s first loop as a coordinate. -/
def index_coord (width i : Nat) : Coord :=
  ⟨((i % width : Nat) : Int), ((i / width : Nat) : Int)⟩

/-- The cell-seeding loop of `world_new`: slot `i` (for `i` from `start` while
`count` slots remain) receives a parentless cell iff `i % CELL_SCARCITY == 0`,
all other slots are initialised empty (the grid starts all-`none` here). -/
def init_cells (r : Rand) (width : Nat) :
    Nat → Nat → (Coord → Option Entity) → Nat → Nat →
    ((Coord → Option Entity) × Nat × Nat)
  | _, 0, g, k, fc => (g, k, fc)
  | i, count + 1, g, k, fc =>
    if i % CELL_SCARCITY = 0 then
      let t := cell_new r none k fc
      init_cells r width (i + 1) count
        (fun c => if c = index_coord width i then some (.cell t.1) else g c)
        t.2.1 t.2.2
    else
      init_cells r width (i + 1) count g k fc

/-- The clump-initialisation loop of `world_new`: each clump gets a fresh
uniform coordinate, two draws per clump, in index order. -/
def init_clumps (r : Rand) (width height : Nat) :
    Nat → Nat → (Fin 30 → Coord) → Nat → ((Fin 30 → Coord) × Nat)
  | _, 0, cl, k => (cl, k)
  | i, count + 1, cl, k =>
    let tx := random_int r k 0 (width : Int)
    let ty := random_int r tx.2 0 (height : Int)
    init_clumps r width height (i + 1) count
      (fun j => if j.val = i then ⟨tx.1, ty.1⟩ else cl j) ty.2

/-- The food-seeding loop of `world_new`: food item `i` is affiliated with
clump `i % CLUMP_COUNT` and placed at an empty slot found near that clump's
coordinate. -/
def init_food (r : Rand) (fuel : Nat) :
    Nat → Nat → World → Nat → Option (World × Nat)
  | _, 0, w, k => some (w, k)
  | i, count + 1, w, k =>
    let ci : Fin 30 := ⟨i % 30, Nat.mod_lt _ (by omega)⟩
    match find_nearby_empty r w fuel (w.clumps ci) k with
    | none => none
    | some t =>
      init_food r fuel (i + 1) count
        (w.set t.1 (some (.food { food_new with clump := (ci.val : Int) }))) t.2

/-- The `world_new(width, height)`: seed cells every CELL_SCARCITY-th slot,
replace the exact-center slot with the distinguished ancestor — a parentless
cell whose chromosome field is then overwritten with the unmutated
`chromosome_big_square()` and whose facing is forced to NORTH, while its
already-computed color field is left as is — then initialise the 30 clumps
(zero-initialised to (0,0) by the compound literal before that) and seed
`(width*height)/FOOD_SCARCITY` food items. -/
def world_new (r : Rand) (fuel : Nat) (width height : Nat) (k fc : Nat) :
    Option (World × Nat) :=
  let t0 := init_cells r width 0 (width * height) (fun _ => none) k fc
  let ai_coord : Coord := ⟨((width / 2 : Nat) : Int), ((height / 2 : Nat) : Int)⟩
  let t1 := cell_new r none t0.2.1 t0.2.2
  let ai_cell : Cell := { t1.1 with chromosome := chromosome_big_square, facing := .north }
  let g1 : Coord → Option Entity :=
    fun c => if c = ai_coord then some (.cell ai_cell) else t0.1 c
  let t2 := init_clumps r width height 0 30 (fun _ => ⟨0, 0⟩) t1.2.1
  let w0 : World := ⟨width, height, t2.1, g1⟩
  init_food r fuel 0 ((width * height) / FOOD_SCARCITY) w0 t2.2

/-- The update tag of the entity at a slot, if any (observation helper). -/
def tag_at (w : World) (c : Coord) : Option Int :=
  (w.entities c).map Entity.last_update_color

/-- The score of the cell at a slot, if a cell is there (observation helper). -/
def score_at (w : World) (c : Coord) : Option Int :=
  match w.entities c with
  | some (.cell cell) => some cell.score
  | _ => none

/-- Whether a slot holds food (observation helper). -/
def food_at (w : World) (c : Coord) : Bool :=
  match w.entities c with
  | some (.food _) => true
  | _ => false

/-- Whether a slot holds a cell (observation helper). -/
def cell_at (w : World) (c : Coord) : Bool :=
  match w.entities c with
  | some (.cell _) => true
  | _ => false

/-- The stored display color of the cell at a slot (observation helper). -/
def stored_color_at (w : World) (c : Coord) : Option Nat :=
  match w.entities c with
  | some (.cell cell) => some cell.color
  | _ => none

/-- The fingerprint `cell_get_color` of the chromosome actually carried by
the cell at a slot (observation helper). -/
def carried_color_at (w : World) (c : Coord) : Option Nat :=
  match w.entities c with
  | some (.cell cell) => some (cell_get_color cell)
  | _ => none

/-! Concrete inputs used by the claim-level evaluations -/

/-- Half, as an explicitly reduced rational (a drand48 draw value on which
neither the 3% nor the 5% test fires). -/
def qhalf : ℚ := ⟨1, 2, by norm_num, by norm_num⟩

/-- A random stream on which no mutation fires (drand48 always 1/2), every
`mrand48` draw is 1 (so `random_int(-1, 2)` yields 0 and `random_int(0, n)`
yields 1 for n ≥ 2), and every `lrand48` draw is 0. -/
def r1 : Rand := ⟨fun _ => 0, fun _ => 1, fun _ => qhalf⟩

/-- A random stream on which every mutation fires (drand48 always 0) and
every replacement field is drawn as 0. -/
def r9 : Rand := ⟨fun _ => 0, fun _ => 1, fun _ => 0⟩

/-- A gene answering every situation with (MOVE_FORWARD, next state 0). -/
def geneAllForward : Gene := ⟨fun _ => ⟨.moveForward, 0⟩⟩

/-- A chromosome all of whose responses are (MOVE_FORWARD, 0). -/
def chromAllForward : Chromosome := ⟨fun _ => geneAllForward⟩

/-- A north-facing test cell with 100 points and the all-forward chromosome,
not yet tagged with pass color 1. -/
def testCell : Cell :=
  { last_update_color := 0, acts := 0, state := 0, score := 100,
    chromosome := chromAllForward, facing := .north, color := 0 }

/-- A test food affiliated with clump 0, not yet tagged with pass color 1. -/
def testFood : Food := { last_update_color := 0, acts := 0, clump := 0 }

/-- A 1-wide, 3-tall world holding only `testCell` at (0, 1). -/
def world1 : World :=
  ⟨1, 3, fun _ => ⟨0, 0⟩,
   fun c => if c = ⟨0, 1⟩ then some (.cell testCell) else none⟩

/-- As `world1` but with `testFood` at (0, 2), the slot directly behind the
north-facing cell. -/
def world2 : World :=
  ⟨1, 3, fun _ => ⟨0, 0⟩,
   fun c => if c = ⟨0, 1⟩ then some (.cell testCell)
            else if c = ⟨0, 2⟩ then some (.food testFood) else none⟩

/-- As `world1` but with `testFood` at (0, 0), the slot directly ahead of the
north-facing cell. -/
def world3 : World :=
  ⟨1, 3, fun _ => ⟨0, 0⟩,
   fun c => if c = ⟨0, 1⟩ then some (.cell testCell)
            else if c = ⟨0, 0⟩ then some (.food testFood) else none⟩

/-! Lemmas about the spatial-placement routines -/

/-- A one-slot step never lands on the starting coordinate. -/
theorem facing_step_ne_self (f : Facing) (c : Coord) (s : Int) (hs : s ≠ 0) :
    facing_step f c s ≠ c := by
  obtain ⟨cx, cy⟩ := c
  intro h
  cases f <;> simp only [facing_step, Coord.mk.injEq] at h <;> omega

/-- What the retry loop guarantees about a coordinate it returns: it is in
bounds and its slot is empty. -/
theorem find_nearby_empty_loop_spec (r : Rand) (w : World) :
    ∀ (fuel : Nat) (c : Coord) (k : Nat) (c' : Coord) (k' : Nat),
      find_nearby_empty_loop r w fuel c k = some (c', k') →
      coord_in_bounds c' w = true ∧ w.entities c' = none := by
  intro fuel
  induction fuel with
  | zero => intro c k c' k' h; simp [find_nearby_empty_loop] at h
  | succ n ih =>
    intro c k c' k' h
    simp only [find_nearby_empty_loop] at h
    cases hb : coord_in_bounds (perturb_coord r c k).1 w with
    | false => rw [hb] at h; simp at h; exact ih _ _ _ _ h
    | true =>
      rw [hb] at h
      simp only [if_true] at h
      cases he : w.entities (perturb_coord r c k).1 with
      | none =>
        rw [he] at h
        simp only [Option.some.injEq, Prod.mk.injEq] at h
        rcases h with ⟨h1, -⟩
        subst h1
        exact ⟨hb, he⟩
      | some e => rw [he] at h; exact ih _ _ _ _ h

/-- Same guarantee for `find_nearby_empty` itself. -/
theorem find_nearby_empty_spec (r : Rand) (w : World) (fuel : Nat) (c : Coord)
    (k : Nat) (c' : Coord) (k' : Nat)
    (h : find_nearby_empty r w fuel c k = some (c', k')) :
    coord_in_bounds c' w = true ∧ w.entities c' = none := by
  unfold find_nearby_empty at h
  split at h
  · exact find_nearby_empty_loop_spec r w fuel c k c' k' h
  · simp at h

/-- On a fully saturated board the retry loop can never produce a slot:
every unrolling returns `none`, for every start coordinate and stream
position — the C loop simply never exits. -/
theorem find_nearby_empty_loop_saturated (r : Rand) (w : World)
    (hsat : ∀ c, coord_in_bounds c w = true → w.entities c ≠ none) :
    ∀ (fuel : Nat) (c : Coord) (k : Nat),
      find_nearby_empty_loop r w fuel c k = none := by
  intro fuel
  induction fuel with
  | zero => intro c k; rfl
  | succ n ih =>
    intro c k
    simp only [find_nearby_empty_loop]
    split
    case isTrue hb =>
      cases he : w.entities (perturb_coord r c k).1 with
      | none => exact absurd he (hsat _ hb)
      | some e => exact ih _ _
    case isFalse hb => exact ih _ _

/-- The `find_nearby_empty` (assertion wrapper included) can never produce a
slot on a fully saturated board. -/
theorem find_nearby_empty_saturated (r : Rand) (w : World)
    (hsat : ∀ c, coord_in_bounds c w = true → w.entities c ≠ none)
    (fuel : Nat) (c : Coord) (k : Nat) :
    find_nearby_empty r w fuel c k = none := by
  unfold find_nearby_empty
  split
  · exact find_nearby_empty_loop_saturated r w hsat fuel c k
  · rfl

/-- What a successful `place_food` run did to the grid: some in-bounds,
previously empty slot `tgt` now holds what the old slot held, and the old
slot is empty; nothing else changed (width, height and all other slots). -/
theorem place_food_spec (r : Rand) (fuel : Nat) (wb : World)
    (old target : Coord) (k : Nat) (w' : World) (k' : Nat) (ef : Entity)
    (hrun : place_food r fuel wb old target k = some (w', k'))
    (hold : wb.entities old = some ef) :
    ∃ tgt, coord_in_bounds tgt wb = true ∧ wb.entities tgt = none ∧
      w'.width = wb.width ∧ w'.height = wb.height ∧
      ∀ j, w'.entities j =
        if j = old then none
        else if j = tgt then some ef
        else wb.entities j := by
  unfold place_food at hrun
  cases hf : find_nearby_empty r wb fuel target k with
  | none => rw [hf] at hrun; simp at hrun
  | some t =>
    rw [hf] at hrun
    obtain ⟨hb, he⟩ := find_nearby_empty_spec r wb fuel target k t.1 t.2 hf
    simp only [Option.some.injEq, Prod.mk.injEq] at hrun
    obtain ⟨hw, -⟩ := hrun
    subst hw
    refine ⟨t.1, hb, he, rfl, rfl, ?_⟩
    intro j
    by_cases hjo : j = old
    · subst hjo; simp [World.get_set_self]
    · rw [World.get_set_ne _ _ _ _ hjo, if_neg hjo]
      by_cases hjt : j = t.1
      · subst hjt; rw [World.get_set_self, hold, if_pos rfl]
      · rw [World.get_set_ne _ _ _ _ hjt, if_neg hjt]

/-- The `place_food` can never complete on a fully saturated board. -/
theorem place_food_saturated (r : Rand) (wb : World)
    (hsat : ∀ c, coord_in_bounds c wb = true → wb.entities c ≠ none)
    (fuel : Nat) (old target : Coord) (k : Nat) :
    place_food r fuel wb old target k = none := by
  unfold place_food
  rw [find_nearby_empty_saturated r wb hsat]

/-- What a successful `relocate_food` run did to the grid: the slot held a
food item `f`; some other in-bounds, previously empty slot now holds `f`,
the eaten slot is empty, and no other slot changed. -/
theorem relocate_food_spec (r : Rand) (fuel : Nat) (w : World) (c : Coord)
    (k : Nat) (w' : World) (k' : Nat)
    (hrun : relocate_food r fuel w c k = some (w', k')) :
    ∃ f tgt, w.entities c = some (.food f) ∧
      coord_in_bounds tgt w = true ∧ w.entities tgt = none ∧
      w'.width = w.width ∧ w'.height = w.height ∧
      ∀ j, w'.entities j =
        if j = c then none
        else if j = tgt then some (.food f)
        else w.entities j := by
  unfold relocate_food at hrun
  cases hc : w.entities c with
  | none => rw [hc] at hrun; simp at hrun
  | some e =>
    rw [hc] at hrun
    cases e with
    | cell cc => simp at hrun
    | food f =>
      simp only [food_spawn, food_rebirth] at hrun
      by_cases hcl : 0 ≤ f.clump ∧ f.clump < 30
      · rw [dif_pos hcl] at hrun
        split at hrun
        · obtain ⟨tgt, hb, he, hw, hh, hall⟩ :=
            place_food_spec _ _ _ _ _ _ _ _ _ hrun hc
          exact ⟨f, tgt, rfl, hb, he, hw, hh, fun j => hall j⟩
        · obtain ⟨tgt, hb, he, hw, hh, hall⟩ :=
            place_food_spec _ _ _ _ _ _ _ _ _ hrun hc
          exact ⟨f, tgt, rfl, hb, he, hw, hh, fun j => hall j⟩
      · rw [dif_neg hcl] at hrun
        simp at hrun

/-! Claim C8 -/

/-- Claim C8.  On a fully saturated board (every in-bounds slot occupied),
`find_nearby_empty` never exits — every unrolling of its unbounded loop
returns `none` — and hence `relocate_food` never completes for any slot, any
fuel bound and any random stream.  In particular the relocation never reaches
the destroy-the-food fallback, which sits after an unconditional `return`:
there is no bounded retry and the food is never destroyed; the C program
loops forever. -/
theorem c8_relocate_food_never_terminates_saturated (r : Rand) (w : World)
    (hsat : ∀ c, coord_in_bounds c w = true → w.entities c ≠ none) :
    (∀ fuel c k, find_nearby_empty r w fuel c k = none) ∧
    (∀ fuel c k, relocate_food r fuel w c k = none) := by
  refine ⟨fun fuel c k => find_nearby_empty_saturated r w hsat fuel c k, ?_⟩
  intro fuel c k
  unfold relocate_food
  cases hc : w.entities c with
  | none => rfl
  | some e =>
    cases e with
    | cell cc => rfl
    | food f =>
      simp only [food_spawn, food_rebirth]
      by_cases hcl : 0 ≤ f.clump ∧ f.clump < 30
      · rw [dif_pos hcl]
        split
        · apply place_food_saturated
          exact hsat
        · apply place_food_saturated
          exact hsat
      · rw [dif_neg hcl]

/-- Witness for the C8 theorem: a concrete saturated board — a 1-by-1 world
whose only slot holds the very food being relocated — on which a concrete
relocation attempt with fuel 7 returns `none`. -/
def world4 : World :=
  ⟨1, 1, fun _ => ⟨0, 0⟩, fun c => if c = ⟨0, 0⟩ then some (.food testFood) else none⟩

theorem c8_witness :
    find_nearby_empty r1 world4 7 ⟨0, 0⟩ 0 = none ∧
    relocate_food r1 7 world4 ⟨0, 0⟩ 0 = none := by
  have hsat : ∀ c, coord_in_bounds c world4 = true → world4.entities c ≠ none := by
    intro c hb
    obtain ⟨cx, cy⟩ := c
    simp only [coord_in_bounds, world4, Bool.and_eq_true, decide_eq_true_eq] at hb ⊢
    have hx : cx = 0 := by omega
    have hy : cy = 0 := by omega
    subst hx; subst hy
    simp
  obtain ⟨h1, h2⟩ := c8_relocate_food_never_terminates_saturated r1 world4 hsat
  exact ⟨h1 7 ⟨0, 0⟩ 0, h2 7 ⟨0, 0⟩ 0⟩

/-! Claim C10 -/

/-- Claim C10.  When a cell at `src` eats the food at `dest` and
`relocate_food` completes, the food has been moved to some slot that is
neither `dest` nor `src` (the search only returns slots that were empty, and
both `dest` and `src` are occupied throughout it), the destination slot is
empty afterwards — so the `assert(!*dest_ent_ptr)` guarding the cell's
subsequent move into it holds — and the eating cell is untouched in its
slot. -/
theorem c10_relocation_avoids_eater_and_destination (r : Rand) (fuel : Nat)
    (w : World) (dest src : Coord) (k k' : Nat) (w' : World)
    (f : Food) (cl : Cell)
    (hfood : w.entities dest = some (.food f))
    (hcell : w.entities src = some (.cell cl))
    (hrun : relocate_food r fuel w dest k = some (w', k')) :
    w'.entities dest = none ∧
    w'.entities src = some (.cell cl) ∧
    ∃ tgt, tgt ≠ dest ∧ tgt ≠ src ∧ w.entities tgt = none ∧
      w'.entities tgt = some (.food f) := by
  obtain ⟨f', tgt, hf', hb, he, -, -, hall⟩ :=
    relocate_food_spec r fuel w dest k w' k' hrun
  rw [hfood] at hf'
  simp only [Option.some.injEq, Entity.food.injEq] at hf'
  subst hf'
  have htd : tgt ≠ dest := fun h => by rw [h, hfood] at he; exact Option.noConfusion he
  have hts : tgt ≠ src := fun h => by rw [h, hcell] at he; exact Option.noConfusion he
  have hsd : src ≠ dest := fun h => by
    rw [h, hfood] at hcell
    exact Entity.noConfusion (Option.some.injEq _ _ ▸ hcell)
  refine ⟨?_, ?_, tgt, htd, hts, he, ?_⟩
  · rw [hall dest, if_pos rfl]
  · rw [hall src, if_neg hsd, if_neg (fun h => hts h.symm)]
    exact hcell
  · rw [hall tgt, if_neg htd, if_pos rfl]

/-- Witness for the C10 theorem: a concrete relocation.  In `world2` the
food at (0, 2) (directly behind the cell at (0, 1)) is relocated; it lands at
(0, 0), the destination (0, 2) is empty afterwards and the cell is untouched. -/
theorem c10_witness :
    ∃ p, relocate_food r1 7 world2 ⟨0, 2⟩ 0 = some p ∧
      (p.1.entities ⟨0, 2⟩ = none ∧
       p.1.entities ⟨0, 1⟩ = some (.cell testCell) ∧
       ∃ tgt, tgt ≠ (⟨0, 2⟩ : Coord) ∧ tgt ≠ (⟨0, 1⟩ : Coord) ∧
         world2.entities tgt = none ∧ p.1.entities tgt = some (.food testFood)) := by
  refine ⟨_, rfl, ?_⟩
  exact c10_relocation_avoids_eater_and_destination r1 7 world2 ⟨0, 2⟩ ⟨0, 1⟩ 0 _ _
    testFood testCell rfl rfl rfl

/-! Case lemmas for entity_update -/

/-- An empty slot: `entity_update` does nothing. -/
theorem entity_update_empty (r : Rand) (fuel : Nat) (w : World) (pos : Coord)
    (T : Int) (k : Nat) (h : w.entities pos = none) :
    entity_update r fuel w pos T k = some (w, k) := by
  simp only [entity_update, h]

/-- An entity already tagged with the pass color: `entity_update` skips it
and changes nothing. -/
theorem entity_update_skip (r : Rand) (fuel : Nat) (w : World) (pos : Coord)
    (T : Int) (k : Nat) (ent : Entity) (h : w.entities pos = some ent)
    (ht : ent.last_update_color = T) :
    entity_update r fuel w pos T k = some (w, k) := by
  simp only [entity_update, h]
  rw [if_pos ht]

/-- An untagged food item: `entity_update` only stamps it. -/
theorem entity_update_food (r : Rand) (fuel : Nat) (w : World) (pos : Coord)
    (T : Int) (k : Nat) (f : Food) (h : w.entities pos = some (.food f))
    (ht : f.last_update_color ≠ T) :
    entity_update r fuel w pos T k =
      some (w.set pos (some (.food { f with last_update_color := T, acts := f.acts + 1 })), k) := by
  simp only [entity_update, h, Entity.last_update_color]
  rw [if_neg ht]
  rfl

/-- An untagged cell: `entity_update` is `cell_act` on the stamped cell in
the stamped world. -/
theorem entity_update_cell (r : Rand) (fuel : Nat) (w : World) (pos : Coord)
    (T : Int) (k : Nat) (cell : Cell) (h : w.entities pos = some (.cell cell))
    (ht : cell.last_update_color ≠ T) :
    entity_update r fuel w pos T k =
      cell_act r fuel
        (w.set pos (some (.cell { cell with last_update_color := T, acts := cell.acts + 1 })))
        pos { cell with last_update_color := T, acts := cell.acts + 1 } k := by
  simp only [entity_update, h, Entity.last_update_color]
  rw [if_neg ht]
  rfl

/-- The `finale` characterised: cost deducted, next state installed, and the
cell is freed (slot emptied) exactly when the resulting score is ≤ 0. -/
theorem finale_spec (w : World) (loc : Coord) (ca : Cell) (resp : Response)
    (k : Nat) (w' : World) (k' : Nat)
    (hrun : finale w loc ca resp k = some (w', k')) :
    w' = (if ca.score - action_costs resp.action ≤ 0 then w.set loc none
          else w.set loc (some (.cell { ca with
            score := ca.score - action_costs resp.action,
            state := resp.next_state }))) ∧ k' = k := by
  simp only [finale] at hrun
  split at hrun
  case isTrue h =>
    simp only [Option.some.injEq, Prod.mk.injEq] at hrun
    obtain ⟨h1, h2⟩ := hrun
    rw [if_pos (show ca.score - action_costs resp.action ≤ 0 from h)]
    exact ⟨h1.symm, h2.symm⟩
  case isFalse h =>
    simp only [Option.some.injEq, Prod.mk.injEq] at hrun
    obtain ⟨h1, h2⟩ := hrun
    rw [if_neg (show ¬ ca.score - action_costs resp.action ≤ 0 from h)]
    exact ⟨h1.symm, h2.symm⟩

/-- The two observable outcomes of the death check, given the world equation
produced by `finale_spec`. -/
theorem death_check_shape (wa : World) (loc : Coord) (ca : Cell)
    (resp : Response) (w' : World)
    (hw' : w' = (if ca.score - action_costs resp.action ≤ 0 then wa.set loc none
          else wa.set loc (some (.cell { ca with
            score := ca.score - action_costs resp.action,
            state := resp.next_state })))) :
    (ca.score - action_costs resp.action ≤ 0 → w'.entities loc = none) ∧
    (0 < ca.score - action_costs resp.action →
      w'.entities loc = some (.cell { ca with
        score := ca.score - action_costs resp.action,
        state := resp.next_state })) := by
  subst hw'
  constructor
  · intro h
    rw [if_pos h]
    exact World.get_set_self _ _ _
  · intro h
    rw [if_neg (by omega)]
    exact World.get_set_self _ _ _

/-- A completed `finale` run, seen at the slot it writes: `loc` ends empty
exactly when the acting cell's post-cost score is ≤ 0, and otherwise ends
holding that cell with exactly the post-cost score and the response's next
state installed. -/
theorem finale_slot (wa : World) (loc : Coord) (ca : Cell) (resp : Response)
    (k : Nat) (w' : World) (k' : Nat)
    (hrun : finale wa loc ca resp k = some (w', k')) :
    (ca.score - action_costs resp.action ≤ 0 → w'.entities loc = none) ∧
    (0 < ca.score - action_costs resp.action →
      w'.entities loc = some (.cell { ca with
        score := ca.score - action_costs resp.action,
        state := resp.next_state })) := by
  obtain ⟨hw, -⟩ := finale_spec _ _ _ _ _ _ _ hrun
  exact death_check_shape _ _ _ _ _ hw

/-- The slot-transfer step (`do_move`) followed by `finale`, pinned for the
death-check theorem: the destination must have been empty for the move to
complete, the pre-cost score at the death check is the mover's score after
the mitosis reset (if its score had reached the threshold), and the
destination slot ends empty exactly when the post-cost score is ≤ 0 —
otherwise it holds the mover with exactly that score, the response's next
state, and the mover's chromosome, tag, ghost counter and color. -/
theorem c5_do_move_case (r : Rand) (wb : World) (pos dest : Coord)
    (ca0 : Cell) (resp : Response) (k : Nat) (w' : World) (k' : Nat)
    (hrun : do_move r wb pos dest ca0 resp k = some (w', k')) :
    wb.entities dest = none ∧
    ∃ sc : Int,
      sc = (if ca0.score ≥ CELL_MITOSIS_THRESHOLD then CELL_START_SCORE
            else ca0.score) ∧
      (sc - action_costs resp.action ≤ 0 → w'.entities dest = none) ∧
      (0 < sc - action_costs resp.action → ∃ cb : Cell,
        w'.entities dest = some (.cell cb) ∧
        cb.score = sc - action_costs resp.action ∧
        cb.state = resp.next_state ∧
        cb.chromosome = ca0.chromosome ∧
        cb.last_update_color = ca0.last_update_color ∧
        cb.acts = ca0.acts ∧
        cb.color = ca0.color) := by
  unfold do_move at hrun
  cases hde : wb.entities dest with
  | some e => rw [hde] at hrun; exact absurd hrun (by simp)
  | none =>
    rw [hde] at hrun
    refine ⟨rfl, ?_⟩
    have hrun' :
        (if ca0.score ≥ CELL_MITOSIS_THRESHOLD then
          finale (wb.set pos (some (.cell (cell_new r (some ca0) k 0).1))) dest
            { ca0 with score := CELL_START_SCORE } resp
            (cell_new r (some ca0) k 0).2.1
        else finale (wb.set pos none) dest ca0 resp k) = some (w', k') := hrun
    split at hrun'
    case isTrue hmit =>
      obtain ⟨hd, hs⟩ := finale_slot _ _ _ _ _ _ _ hrun'
      refine ⟨CELL_START_SCORE, (if_pos hmit).symm, ?_, ?_⟩
      · exact hd
      · intro hpos
        exact ⟨_, hs hpos, rfl, rfl, rfl, rfl, rfl, rfl⟩
    case isFalse hmit =>
      obtain ⟨hd, hs⟩ := finale_slot _ _ _ _ _ _ _ hrun'
      refine ⟨ca0.score, (if_neg hmit).symm, ?_, ?_⟩
      · exact hd
      · intro hpos
        exact ⟨_, hs hpos, rfl, rfl, rfl, rfl, rfl, rfl⟩

/-- The move arm of `cell_act`, pinned for the death-check theorem: the
final slot `loc` and the pre-cost score `sc` at the death check are
determined by which of the four source cases holds of `w1` at the computed
destination — out of bounds (stay at `pos`, score unchanged), blocked by a
cell (stay at `pos`, score unchanged), empty (move to the destination,
score after the mitosis reset if it applies), or food (move to the
destination, score after the FOOD_SCORE credit and then the mitosis reset
if it applies) — and the slot `loc` ends empty exactly when `sc` minus the
action's cost is ≤ 0, otherwise holding the cell with exactly that score. -/
theorem c5_move_case (r : Rand) (fuel : Nat) (w1 : World) (pos : Coord)
    (cellT : Cell) (resp : Response) (k : Nat) (w' : World) (k' : Nat)
    (dest : Coord)
    (hdest : dest = facing_step cellT.facing pos
      (if ACTION_MOVE_FORWARD_CONST ≠ 0 then 1 else -1))
    (hrun :
      (let dst := facing_step cellT.facing pos
        (if ACTION_MOVE_FORWARD_CONST ≠ 0 then 1 else -1)
      if coord_in_bounds dst w1 then
        match w1.entities dst with
        | some (.cell _) => finale w1 pos cellT resp k
        | some (.food _) =>
          match relocate_food r fuel w1 dst k with
          | none => none
          | some t => do_move r t.1 pos dst
              { cellT with score := cellT.score + FOOD_SCORE } resp t.2
        | none => do_move r w1 pos dst cellT resp k
      else finale w1 pos cellT resp k) = some (w', k')) :
    ∃ (sc : Int) (loc : Coord),
      ((coord_in_bounds dest w1 = false ∧ sc = cellT.score ∧ loc = pos) ∨
       (coord_in_bounds dest w1 = true ∧
        (∃ cc, w1.entities dest = some (.cell cc)) ∧
        sc = cellT.score ∧ loc = pos) ∨
       (coord_in_bounds dest w1 = true ∧ w1.entities dest = none ∧
        loc = dest ∧
        sc = (if cellT.score ≥ CELL_MITOSIS_THRESHOLD then CELL_START_SCORE
              else cellT.score)) ∨
       (coord_in_bounds dest w1 = true ∧
        (∃ fd, w1.entities dest = some (.food fd)) ∧
        loc = dest ∧
        sc = (if cellT.score + FOOD_SCORE ≥ CELL_MITOSIS_THRESHOLD
              then CELL_START_SCORE
              else cellT.score + FOOD_SCORE))) ∧
      (sc - action_costs resp.action ≤ 0 → w'.entities loc = none) ∧
      (0 < sc - action_costs resp.action → ∃ cb : Cell,
        w'.entities loc = some (.cell cb) ∧
        cb.score = sc - action_costs resp.action ∧
        cb.state = resp.next_state ∧
        cb.chromosome = cellT.chromosome ∧
        cb.last_update_color = cellT.last_update_color ∧
        cb.acts = cellT.acts ∧
        cb.color = cellT.color) := by
  simp only [] at hrun
  rw [← hdest] at hrun
  by_cases hb : coord_in_bounds dest w1 = true
  case neg =>
    rw [if_neg hb] at hrun
    obtain ⟨hd, hs⟩ := finale_slot _ _ _ _ _ _ _ hrun
    refine ⟨cellT.score, pos, Or.inl ⟨by simpa using hb, rfl, rfl⟩, hd, ?_⟩
    intro hpos
    exact ⟨_, hs hpos, rfl, rfl, rfl, rfl, rfl, rfl⟩
  case pos =>
    rw [if_pos hb] at hrun
    cases hde : w1.entities dest with
    | none =>
      rw [hde] at hrun
      obtain ⟨-, sc, hsc, hd, hs⟩ :=
        c5_do_move_case r w1 pos dest cellT resp k w' k' hrun
      exact ⟨sc, dest, Or.inr (Or.inr (Or.inl ⟨hb, rfl, rfl, hsc⟩)), hd, hs⟩
    | some e =>
      rw [hde] at hrun
      cases e with
      | cell cc =>
        obtain ⟨hd, hs⟩ := finale_slot _ _ _ _ _ _ _ hrun
        refine ⟨cellT.score, pos,
          Or.inr (Or.inl ⟨hb, ⟨cc, rfl⟩, rfl, rfl⟩), hd, ?_⟩
        intro hpos
        exact ⟨_, hs hpos, rfl, rfl, rfl, rfl, rfl, rfl⟩
      | food fd =>
        cases hrel : relocate_food r fuel w1 dest k with
        | none => rw [hrel] at hrun; exact absurd hrun (by simp)
        | some t =>
          rw [hrel] at hrun
          obtain ⟨-, sc, hsc, hd, hs⟩ := c5_do_move_case r t.1 pos dest
            { cellT with score := cellT.score + FOOD_SCORE } resp t.2 w' k' hrun
          refine ⟨sc, dest,
            Or.inr (Or.inr (Or.inr ⟨hb, ⟨fd, rfl⟩, rfl, hsc⟩)), hd, ?_⟩
          intro hpos
          obtain ⟨cb, h1, h2, h3, h4, h5, h6, h7⟩ := hs hpos
          exact ⟨cb, h1, h2, h3, h4, h5, h6, h7⟩

/-! Claim C5 -/

/-- Claim C5.  Whenever `entity_update` processes a cell (present at `pos`,
not yet tagged with the pass color) and completes, the processed cell's run
ends in the death check at a final slot `loc` with a pre-cost score `sc`,
both of which are pinned by the case that actually holds: on a turn, or on
a move whose destination is out of bounds or blocked by a cell, `loc` is
`pos` and `sc` is the cell's score unchanged; on a move to an empty
destination, `loc` is that destination and `sc` is the cell's score after
the mitosis reset (if the threshold was reached); on a move onto food,
`loc` is the destination and `sc` is the score after the FOOD_SCORE credit
and then the mitosis reset if it applies.  The slot `loc` of the final
world is empty exactly when `sc` minus the chosen action's cost is ≤ 0 —
the cell is removed in exactly that tick and its slot is empty immediately
after — and with a positive post-cost score the slot holds the cell,
carrying exactly the post-cost score, the response's next state, the
processed cell's chromosome, the pass tag, and its ghost counter and
color. -/
theorem c5_cell_dies_iff_postcost_score_nonpositive
    (r : Rand) (fuel : Nat) (w : World) (pos : Coord) (T : Int) (k : Nat)
    (w' : World) (k' : Nat) (cell cellT : Cell) (w1 : World) (resp : Response)
    (dest : Coord)
    (hcell : w.entities pos = some (.cell cell))
    (htag : cell.last_update_color ≠ T)
    (hct : cellT = { cell with last_update_color := T, acts := cell.acts + 1 })
    (hw1 : w1 = w.set pos (some (.cell cellT)))
    (hresp : resp = (cellT.chromosome.genes cellT.state).responses
        (perceive w1 pos cellT.facing))
    (hdest : dest = facing_step cellT.facing pos
        (if ACTION_MOVE_FORWARD_CONST ≠ 0 then 1 else -1))
    (hrun : entity_update r fuel w pos T k = some (w', k')) :
    ∃ (sc : Int) (loc : Coord),
      (((resp.action = .turnLeft ∨ resp.action = .turnRight) ∧
        sc = cellT.score ∧ loc = pos) ∨
       ((resp.action = .moveForward ∨ resp.action = .moveBackward) ∧
        ((coord_in_bounds dest w1 = false ∧ sc = cellT.score ∧ loc = pos) ∨
         (coord_in_bounds dest w1 = true ∧
          (∃ cc, w1.entities dest = some (.cell cc)) ∧
          sc = cellT.score ∧ loc = pos) ∨
         (coord_in_bounds dest w1 = true ∧ w1.entities dest = none ∧
          loc = dest ∧
          sc = (if cellT.score ≥ CELL_MITOSIS_THRESHOLD then CELL_START_SCORE
                else cellT.score)) ∨
         (coord_in_bounds dest w1 = true ∧
          (∃ fd, w1.entities dest = some (.food fd)) ∧
          loc = dest ∧
          sc = (if cellT.score + FOOD_SCORE ≥ CELL_MITOSIS_THRESHOLD
                then CELL_START_SCORE
                else cellT.score + FOOD_SCORE))))) ∧
      (sc - action_costs resp.action ≤ 0 → w'.entities loc = none) ∧
      (0 < sc - action_costs resp.action → ∃ cb : Cell,
        w'.entities loc = some (.cell cb) ∧
        cb.score = sc - action_costs resp.action ∧
        cb.state = resp.next_state ∧
        cb.chromosome = cellT.chromosome ∧
        cb.last_update_color = T ∧
        cb.acts = cellT.acts ∧
        cb.color = cellT.color) := by
  have htT : cellT.last_update_color = T := by rw [hct]
  rw [entity_update_cell r fuel w pos T k cell hcell htag] at hrun
  rw [← hct, ← hw1] at hrun
  simp only [cell_act] at hrun
  rw [← hresp] at hrun
  cases hact : resp.action with
  | turnLeft =>
    rw [hact] at hrun
    rw [← hact]
    obtain ⟨hd, hs⟩ := finale_slot _ _ _ _ _ _ _ hrun
    refine ⟨cellT.score, pos, Or.inl ⟨Or.inl rfl, rfl, rfl⟩, hd, ?_⟩
    intro hpos
    exact ⟨_, hs hpos, rfl, rfl, rfl, htT, rfl, rfl⟩
  | turnRight =>
    rw [hact] at hrun
    rw [← hact]
    obtain ⟨hd, hs⟩ := finale_slot _ _ _ _ _ _ _ hrun
    refine ⟨cellT.score, pos, Or.inl ⟨Or.inr rfl, rfl, rfl⟩, hd, ?_⟩
    intro hpos
    exact ⟨_, hs hpos, rfl, rfl, rfl, htT, rfl, rfl⟩
  | moveForward =>
    rw [hact] at hrun
    rw [← hact]
    obtain ⟨sc, loc, hguard, hd, hs⟩ :=
      c5_move_case r fuel w1 pos cellT resp k w' k' dest hdest hrun
    refine ⟨sc, loc, Or.inr ⟨Or.inl rfl, hguard⟩, hd, ?_⟩
    intro hpos
    obtain ⟨cb, h1, h2, h3, h4, h5, h6, h7⟩ := hs hpos
    exact ⟨cb, h1, h2, h3, h4, h5.trans htT, h6, h7⟩
  | moveBackward =>
    rw [hact] at hrun
    rw [← hact]
    obtain ⟨sc, loc, hguard, hd, hs⟩ :=
      c5_move_case r fuel w1 pos cellT resp k w' k' dest hdest hrun
    refine ⟨sc, loc, Or.inr ⟨Or.inr rfl, hguard⟩, hd, ?_⟩
    intro hpos
    obtain ⟨cb, h1, h2, h3, h4, h5, h6, h7⟩ := hs hpos
    exact ⟨cb, h1, h2, h3, h4, h5.trans htT, h6, h7⟩

/-! Claim C4 -/

/-- A move costs strictly less than the starting score, so a parent that has
just reset to CELL_START_SCORE always survives the cost deduction. -/
theorem start_score_survives_cost (a : Action) :
    ¬ CELL_START_SCORE - action_costs a ≤ 0 := by
  cases a <;> decide

/-- Claim C4.  Whenever a cell whose score has reached the mitosis threshold
(at the moment of the move, i.e. including the food credit if the move eats)
completes a successful move — the destination is in bounds and either empty,
or food that a completed `relocate_food` run has just cleared — a child is
spawned into the vacated source slot with a mutated copy of the parent's
chromosome, the parent's facing rotated 180 degrees ((facing + 2) mod 4),
FSM state 0 and score CELL_START_SCORE, and the parent's score is reset to
CELL_START_SCORE before the action's cost is deducted (so the parent ends
the tick at the destination with CELL_START_SCORE minus the cost). -/
theorem c4_mitosis_spawns_child
    (r : Rand) (fuel : Nat) (w : World) (pos : Coord) (T : Int) (k : Nat)
    (cell cellT : Cell) (w1 : World) (resp : Response) (dest : Coord)
    (credit : Int) (w2 : World) (k2 : Nat)
    (hcell : w.entities pos = some (.cell cell))
    (htag : cell.last_update_color ≠ T)
    (hct : cellT = { cell with last_update_color := T, acts := cell.acts + 1 })
    (hw1 : w1 = w.set pos (some (.cell cellT)))
    (hresp : resp = (cellT.chromosome.genes cellT.state).responses
        (perceive w1 pos cellT.facing))
    (hmove : resp.action = .moveForward ∨ resp.action = .moveBackward)
    (hdest : dest = facing_step cellT.facing pos
        (if ACTION_MOVE_FORWARD_CONST ≠ 0 then 1 else -1))
    (hbnd : coord_in_bounds dest w1 = true)
    (hfree : (w1.entities dest = none ∧ credit = 0 ∧ w2 = w1 ∧ k2 = k) ∨
             ((∃ f, w1.entities dest = some (.food f)) ∧ credit = FOOD_SCORE ∧
              relocate_food r fuel w1 dest k = some (w2, k2)))
    (hscore : CELL_MITOSIS_THRESHOLD ≤ cellT.score + credit) :
    ∃ (w' : World) (k' : Nat) (child parent : Cell),
      entity_update r fuel w pos T k = some (w', k') ∧
      w'.entities pos = some (.cell child) ∧
      child.chromosome = (chromosome_mutate r cellT.chromosome k2).1 ∧
      child.facing = facing_turn cellT.facing 2 ∧
      child.state = 0 ∧
      child.score = CELL_START_SCORE ∧
      child.last_update_color = T ∧
      w'.entities dest = some (.cell parent) ∧
      parent.score = CELL_START_SCORE - action_costs resp.action ∧
      parent.state = resp.next_state ∧
      k' = (chromosome_mutate r cellT.chromosome k2).2 := by
  have hpd : pos ≠ dest := by
    rw [hdest]
    exact fun h => facing_step_ne_self cellT.facing pos _ (by decide) h.symm
  rw [entity_update_cell r fuel w pos T k cell hcell htag, ← hct, ← hw1]
  simp only [cell_act]
  rw [← hresp, ← hdest]
  rcases hmove with hmv | hmv <;> rw [hmv, if_pos hbnd] <;>
    rcases hfree with ⟨hemp, hcr, hw2, hk2⟩ | ⟨⟨f, hfd⟩, hcr, hrel⟩
  · rw [hcr] at hscore
    rw [hk2]
    simp only [hemp, do_move]
    rw [if_pos (show cellT.score ≥ CELL_MITOSIS_THRESHOLD by omega)]
    simp only [finale]
    rw [if_neg (start_score_survives_cost resp.action)]
    refine ⟨_, _, (cell_new r (some cellT) k 0).1,
      { cellT with score := CELL_START_SCORE - action_costs resp.action, state := resp.next_state },
      rfl, ?_, rfl, rfl, rfl, rfl, by rw [hct]; rfl, ?_, ?_, rfl, rfl⟩
    · rw [World.get_set_ne _ _ _ _ hpd, World.get_set_self]
    · rw [World.get_set_self]
    · rw [hmv]
  · rw [hcr] at hscore
    obtain ⟨f2, tgt, -, -, -, -, -, hall⟩ :=
      relocate_food_spec r fuel w1 dest k w2 k2 hrel
    have hde2 : w2.entities dest = none := by rw [hall dest, if_pos rfl]
    simp only [hfd, hrel, do_move, hde2]
    rw [if_pos (show cellT.score + FOOD_SCORE ≥ CELL_MITOSIS_THRESHOLD by omega)]
    simp only [finale]
    rw [if_neg (start_score_survives_cost resp.action)]
    refine ⟨_, _,
      (cell_new r (some { cellT with score := cellT.score + FOOD_SCORE }) k2 0).1,
      { cellT with score := CELL_START_SCORE - action_costs resp.action, state := resp.next_state },
      rfl, ?_, rfl, rfl, rfl, rfl, by rw [hct]; rfl, ?_, ?_, rfl, rfl⟩
    · rw [World.get_set_ne _ _ _ _ hpd, World.get_set_self]
    · rw [World.get_set_self]
    · rw [hmv]
  · rw [hcr] at hscore
    rw [hk2]
    simp only [hemp, do_move]
    rw [if_pos (show cellT.score ≥ CELL_MITOSIS_THRESHOLD by omega)]
    simp only [finale]
    rw [if_neg (start_score_survives_cost resp.action)]
    refine ⟨_, _, (cell_new r (some cellT) k 0).1,
      { cellT with score := CELL_START_SCORE - action_costs resp.action, state := resp.next_state },
      rfl, ?_, rfl, rfl, rfl, rfl, by rw [hct]; rfl, ?_, ?_, rfl, rfl⟩
    · rw [World.get_set_ne _ _ _ _ hpd, World.get_set_self]
    · rw [World.get_set_self]
    · rw [hmv]
  · rw [hcr] at hscore
    obtain ⟨f2, tgt, -, -, -, -, -, hall⟩ :=
      relocate_food_spec r fuel w1 dest k w2 k2 hrel
    have hde2 : w2.entities dest = none := by rw [hall dest, if_pos rfl]
    simp only [hfd, hrel, do_move, hde2]
    rw [if_pos (show cellT.score + FOOD_SCORE ≥ CELL_MITOSIS_THRESHOLD by omega)]
    simp only [finale]
    rw [if_neg (start_score_survives_cost resp.action)]
    refine ⟨_, _,
      (cell_new r (some { cellT with score := cellT.score + FOOD_SCORE }) k2 0).1,
      { cellT with score := CELL_START_SCORE - action_costs resp.action, state := resp.next_state },
      rfl, ?_, rfl, rfl, rfl, rfl, by rw [hct]; rfl, ?_, ?_, rfl, rfl⟩
    · rw [World.get_set_ne _ _ _ _ hpd, World.get_set_self]
    · rw [World.get_set_self]
    · rw [hmv]

/-! Witness inputs and witnesses for C4 and C5 -/

/-- A gene answering every situation with (TURN_LEFT, next state 0). -/
def geneAllLeft : Gene := ⟨fun _ => ⟨.turnLeft, 0⟩⟩

/-- A chromosome all of whose responses are (TURN_LEFT, 0). -/
def chromAllLeft : Chromosome := ⟨fun _ => geneAllLeft⟩

/-- A cell with 3 points: one turn (cost 3) drives its score to exactly 0. -/
def cellDying : Cell :=
  { last_update_color := 0, acts := 0, state := 0, score := 3,
    chromosome := chromAllLeft, facing := .north, color := 0 }

/-- A 1-by-1 world holding only `cellDying`. -/
def world5 : World :=
  ⟨1, 1, fun _ => ⟨0, 0⟩, fun c => if c = ⟨0, 0⟩ then some (.cell cellDying) else none⟩

/-- The `cellDying` stamped with pass color 1. -/
def cellDyingT : Cell :=
  { cellDying with last_update_color := 1, acts := cellDying.acts + 1 }

/-- The stamped world of the C5 witness: `world5` with `cellDyingT` written
at (0, 0). -/
def w5s : World := world5.set ⟨0, 0⟩ (some (.cell cellDyingT))

/-- The response to the C5 witness cell's perceived situation. -/
def resp5 : Response := ⟨Action.turnLeft, 0⟩

/-- The move destination the C5 witness cell would compute. -/
def dest5 : Coord := facing_step cellDyingT.facing ⟨0, 0⟩
  (if ACTION_MOVE_FORWARD_CONST ≠ 0 then 1 else -1)

/-- Witness for the C5 theorem: `cellDying` turns left (cost 3), the turn
case pins its final slot to (0, 0) and its pre-cost score to 3, the
post-cost score is exactly 0, and the cell is removed from the grid in that
same tick. -/
theorem c5_witness :
    ∃ p, entity_update r1 10 world5 ⟨0, 0⟩ 1 0 = some p ∧
      ∃ (sc : Int) (loc : Coord),
        (((resp5.action = .turnLeft ∨ resp5.action = .turnRight) ∧
          sc = cellDyingT.score ∧ loc = (⟨0, 0⟩ : Coord)) ∨
         ((resp5.action = .moveForward ∨ resp5.action = .moveBackward) ∧
          ((coord_in_bounds dest5 w5s = false ∧ sc = cellDyingT.score ∧
            loc = (⟨0, 0⟩ : Coord)) ∨
           (coord_in_bounds dest5 w5s = true ∧
            (∃ cc, w5s.entities dest5 = some (.cell cc)) ∧
            sc = cellDyingT.score ∧ loc = (⟨0, 0⟩ : Coord)) ∨
           (coord_in_bounds dest5 w5s = true ∧ w5s.entities dest5 = none ∧
            loc = dest5 ∧
            sc = (if cellDyingT.score ≥ CELL_MITOSIS_THRESHOLD
                  then CELL_START_SCORE else cellDyingT.score)) ∨
           (coord_in_bounds dest5 w5s = true ∧
            (∃ fd, w5s.entities dest5 = some (.food fd)) ∧
            loc = dest5 ∧
            sc = (if cellDyingT.score + FOOD_SCORE ≥ CELL_MITOSIS_THRESHOLD
                  then CELL_START_SCORE
                  else cellDyingT.score + FOOD_SCORE))))) ∧
        (sc - action_costs resp5.action ≤ 0 → p.1.entities loc = none) ∧
        (0 < sc - action_costs resp5.action → ∃ cb : Cell,
          p.1.entities loc = some (.cell cb) ∧
          cb.score = sc - action_costs resp5.action ∧
          cb.state = resp5.next_state ∧
          cb.chromosome = cellDyingT.chromosome ∧
          cb.last_update_color = 1 ∧
          cb.acts = cellDyingT.acts ∧
          cb.color = cellDyingT.color) := by
  refine ⟨_, rfl, ?_⟩
  exact c5_cell_dies_iff_postcost_score_nonpositive r1 10 world5 ⟨0, 0⟩ 1 0 _ _
    cellDying cellDyingT w5s resp5 dest5
    rfl (by decide) rfl rfl (by decide) rfl rfl

/-- A cell whose score already sits at the mitosis threshold. -/
def cellRich : Cell :=
  { last_update_color := 0, acts := 0, state := 0, score := 1000,
    chromosome := chromAllForward, facing := .north, color := 0 }

/-- A 1-by-3 world holding only `cellRich` at (0, 1). -/
def world6 : World :=
  ⟨1, 3, fun _ => ⟨0, 0⟩,
   fun c => if c = ⟨0, 1⟩ then some (.cell cellRich) else none⟩

/-- The `cellRich` stamped with pass color 1. -/
def cellRichT : Cell :=
  { cellRich with last_update_color := 1, acts := cellRich.acts + 1 }

/-- Witness for the C4 theorem: `cellRich` moves (to the backward slot
(0, 2), per the step bug), spawns a child at the vacated (0, 1), and ends the
tick at (0, 2) with 250 - 8 points. -/
theorem c4_witness :
    ∃ (w' : World) (k' : Nat) (child parent : Cell),
      entity_update r1 10 world6 ⟨0, 1⟩ 1 0 = some (w', k') ∧
      w'.entities ⟨0, 1⟩ = some (.cell child) ∧
      child.chromosome = (chromosome_mutate r1 cellRichT.chromosome 0).1 ∧
      child.facing = facing_turn cellRichT.facing 2 ∧
      child.state = 0 ∧
      child.score = CELL_START_SCORE ∧
      child.last_update_color = 1 ∧
      w'.entities ⟨0, 2⟩ = some (.cell parent) ∧
      parent.score = CELL_START_SCORE -
        action_costs (⟨Action.moveForward, 0⟩ : Response).action ∧
      parent.state = (⟨Action.moveForward, 0⟩ : Response).next_state ∧
      k' = (chromosome_mutate r1 cellRichT.chromosome 0).2 :=
  c4_mitosis_spawns_child r1 10 world6 ⟨0, 1⟩ 1 0 cellRich cellRichT
    (world6.set ⟨0, 1⟩ (some (.cell cellRichT))) ⟨Action.moveForward, 0⟩ ⟨0, 2⟩ 0
    (world6.set ⟨0, 1⟩ (some (.cell cellRichT))) 0
    rfl (by decide) rfl rfl (by decide) (Or.inl rfl) (by decide) (by decide)
    (Or.inl ⟨rfl, rfl, rfl, rfl⟩) (by decide)

/-! What one cell action may write into the grid -/

/-- The values `cell_act` (for a stamped cell with pass color `T` and ghost
counter `a`) may place into a slot, beyond leaving it unchanged: empty it, a
cell tagged `T` whose counter is 0 (a newborn child) or `a` (the acting
cell), or a food item that already existed somewhere in the base world. -/
def CellActWrite (wb : World) (T : Int) (a : Nat) (v : Option Entity) : Prop :=
  v = none ∨
  (∃ c', v = some (.cell c') ∧ c'.last_update_color = T ∧
    (c'.acts = 0 ∨ c'.acts = a)) ∨
  (∃ i f, v = some (.food f) ∧ wb.entities i = some (.food f))

/-- Slot-difference relation: every slot of `wB` is either unchanged from
`wA` or holds one of the permitted written values. -/
def WriteStep (wA wB : World) (T : Int) (a : Nat) : Prop :=
  ∀ j, wB.entities j = wA.entities j ∨ CellActWrite wA T a (wB.entities j)

/-- The `WriteStep` composes: two successive permitted rewritings are one. -/
theorem WriteStep.compose (wA wB wC : World) (T : Int) (a : Nat)
    (h1 : WriteStep wA wB T a) (h2 : WriteStep wB wC T a) :
    WriteStep wA wC T a := by
  intro j
  rcases h2 j with h | h
  · rw [h]; exact h1 j
  · rcases h with h | ⟨c', hv, ht, ha⟩ | ⟨i, f, hv, hE⟩
    · exact Or.inr (Or.inl h)
    · exact Or.inr (Or.inr (Or.inl ⟨c', hv, ht, ha⟩))
    · rcases h1 i with h1i | h1i
      · rw [h1i] at hE
        exact Or.inr (Or.inr (Or.inr ⟨i, f, hv, hE⟩))
      · rcases h1i with h1i | ⟨c2, hv2, -, -⟩ | ⟨i2, f2, hv2, hE2⟩
        · rw [h1i] at hE; exact Option.noConfusion hE
        · rw [hv2] at hE
          exact Entity.noConfusion (Option.some.injEq _ _ ▸ hE)
        · rw [hv2] at hE
          have : f2 = f := by
            have := Option.some.injEq (Entity.food f2) (Entity.food f) ▸ hE
            exact (Entity.food.injEq f2 f) ▸ this
          subst this
          exact Or.inr (Or.inr (Or.inr ⟨i2, f2, hv, hE2⟩))

/-- Writing one slot is a `WriteStep` whenever the written value is
permitted. -/
theorem WriteStep.of_set (wv : World) (c : Coord) (v : Option Entity)
    (T : Int) (a : Nat) (hv : CellActWrite wv T a v) :
    WriteStep wv (wv.set c v) T a := by
  intro j
  by_cases h : j = c
  · subst h; rw [World.get_set_self]; exact Or.inr hv
  · rw [World.get_set_ne _ _ _ _ h]; exact Or.inl rfl

/-- A completed `finale` run is a `WriteStep` for its base world, provided
the acting cell carries tag `T` and counter `a`; and it preserves the
dimensions. -/
theorem finale_writes (wv : World) (loc : Coord) (ca : Cell) (resp : Response)
    (kk : Nat) (w' : World) (k' : Nat) (T : Int) (a : Nat)
    (htag : ca.last_update_color = T) (hacts : ca.acts = a)
    (hrun : finale wv loc ca resp kk = some (w', k')) :
    WriteStep wv w' T a ∧ w'.width = wv.width ∧ w'.height = wv.height := by
  obtain ⟨hw, -⟩ := finale_spec _ _ _ _ _ _ _ hrun
  by_cases hc : ca.score - action_costs resp.action ≤ 0
  · rw [if_pos hc] at hw
    subst hw
    exact ⟨WriteStep.of_set _ _ _ _ _ (Or.inl rfl), rfl, rfl⟩
  · rw [if_neg hc] at hw
    subst hw
    refine ⟨WriteStep.of_set _ _ _ _ _ (Or.inr (Or.inl ⟨_, rfl, htag, Or.inr hacts⟩)),
      rfl, rfl⟩

/-- A completed `relocate_food` run is a `WriteStep` (it only empties the
eaten slot and re-places a food item that existed in the base world), and it
preserves the dimensions. -/
theorem relocate_food_writes (r : Rand) (fuel : Nat) (wv : World) (c : Coord)
    (k : Nat) (w2 : World) (k2 : Nat) (T : Int) (a : Nat)
    (hrun : relocate_food r fuel wv c k = some (w2, k2)) :
    WriteStep wv w2 T a ∧ w2.width = wv.width ∧ w2.height = wv.height := by
  obtain ⟨f, tgt, hc, -, -, hw, hh, hall⟩ :=
    relocate_food_spec r fuel wv c k w2 k2 hrun
  refine ⟨?_, hw, hh⟩
  intro j
  rw [hall j]
  by_cases hjc : j = c
  · rw [if_pos hjc]; exact Or.inr (Or.inl rfl)
  · rw [if_neg hjc]
    by_cases hjt : j = tgt
    · rw [if_pos hjt]
      exact Or.inr (Or.inr (Or.inr ⟨c, f, rfl, hc⟩))
    · rw [if_neg hjt]; exact Or.inl rfl

/-- After `finale`, any cell left at the final location carries tag `T`. -/
theorem finale_pos_tagged (wv : World) (loc : Coord) (ca : Cell)
    (resp : Response) (kk : Nat) (w' : World) (k' : Nat) (T : Int)
    (htag : ca.last_update_color = T)
    (hrun : finale wv loc ca resp kk = some (w', k')) :
    ∀ cc, w'.entities loc = some (.cell cc) → cc.last_update_color = T := by
  obtain ⟨hw, -⟩ := finale_spec _ _ _ _ _ _ _ hrun
  intro cc hcc
  by_cases hc : ca.score - action_costs resp.action ≤ 0
  · rw [if_pos hc] at hw
    rw [hw, World.get_set_self] at hcc
    exact Option.noConfusion hcc
  · rw [if_neg hc] at hw
    rw [hw, World.get_set_self] at hcc
    have := Option.some.injEq _ _ ▸ hcc
    have hcc2 := (Entity.cell.injEq _ _) ▸ this
    rw [← hcc2]
    exact htag

/-- A completed `do_move` is a `WriteStep`, preserves the dimensions, and —
since the destination differs from the source — leaves at the source slot
only a newborn child (tagged `T`) or nothing. -/
theorem do_move_writes (r : Rand) (wb : World) (pos dest : Coord) (ca : Cell)
    (resp : Response) (kk : Nat) (w' : World) (k' : Nat) (T : Int)
    (htag : ca.last_update_color = T)
    (hpd : pos ≠ dest)
    (hrun : do_move r wb pos dest ca resp kk = some (w', k')) :
    WriteStep wb w' T ca.acts ∧ w'.width = wb.width ∧ w'.height = wb.height ∧
    (∀ cc, w'.entities pos = some (.cell cc) → cc.last_update_color = T) := by
  unfold do_move at hrun
  split at hrun
  · exact absurd hrun (by simp)
  case h_2 hde =>
    split at hrun
    case isTrue hmit =>
      obtain ⟨hws, hw, hh⟩ :=
        finale_writes (wb.set pos (some (.cell (cell_new r (some ca) kk 0).1)))
          dest { ca with score := CELL_START_SCORE } resp
          (cell_new r (some ca) kk 0).2.1 w' k' T ca.acts htag rfl hrun
      obtain ⟨hw2, -⟩ :=
        finale_spec (wb.set pos (some (.cell (cell_new r (some ca) kk 0).1)))
          dest { ca with score := CELL_START_SCORE } resp
          (cell_new r (some ca) kk 0).2.1 w' k' hrun
      have hchild : CellActWrite wb T ca.acts
          (some (.cell (cell_new r (some ca) kk 0).1)) :=
        Or.inr (Or.inl ⟨_, rfl, htag, Or.inl rfl⟩)
      refine ⟨WriteStep.compose _ _ _ _ _
        (WriteStep.of_set wb pos _ T ca.acts hchild) hws, hw, hh, ?_⟩
      intro cc hcc
      have hpos : w'.entities pos =
          some (.cell (cell_new r (some ca) kk 0).1) := by
        by_cases hc : ({ ca with score := CELL_START_SCORE } : Cell).score -
            action_costs resp.action ≤ 0
        · rw [hw2, if_pos hc, World.get_set_ne _ _ _ _ hpd, World.get_set_self]
        · rw [hw2, if_neg hc, World.get_set_ne _ _ _ _ hpd, World.get_set_self]
      rw [hpos] at hcc
      have := Option.some.injEq _ _ ▸ hcc
      have hcc2 := (Entity.cell.injEq _ _) ▸ this
      rw [← hcc2]
      exact htag
    case isFalse hmit =>
      obtain ⟨hws, hw, hh⟩ := finale_writes _ _ _ _ _ _ _ T ca.acts htag rfl hrun
      obtain ⟨hw2, -⟩ := finale_spec _ _ _ _ _ _ _ hrun
      refine ⟨WriteStep.compose _ _ _ _ _
        (WriteStep.of_set wb pos none T ca.acts (Or.inl rfl)) hws, hw, hh, ?_⟩
      intro cc hcc
      have hpos : w'.entities pos = none := by
        by_cases hc : ca.score - action_costs resp.action ≤ 0
        · rw [hw2, if_pos hc, World.get_set_ne _ _ _ _ hpd, World.get_set_self]
        · rw [hw2, if_neg hc, World.get_set_ne _ _ _ _ hpd, World.get_set_self]
      rw [hpos] at hcc
      exact Option.noConfusion hcc

/-- The move arm of `cell_act`, for the write-characterisation. -/
theorem cell_act_move_writes (r : Rand) (fuel : Nat) (w1 : World) (pos : Coord)
    (cellT : Cell) (resp : Response) (k : Nat) (w' : World) (k' : Nat) (T : Int)
    (htag : cellT.last_update_color = T)
    (hrun :
      (let dest := facing_step cellT.facing pos
        (if ACTION_MOVE_FORWARD_CONST ≠ 0 then 1 else -1)
      if coord_in_bounds dest w1 then
        match w1.entities dest with
        | some (.cell _) => finale w1 pos cellT resp k
        | some (.food _) =>
          match relocate_food r fuel w1 dest k with
          | none => none
          | some t => do_move r t.1 pos dest
              { cellT with score := cellT.score + FOOD_SCORE } resp t.2
        | none => do_move r w1 pos dest cellT resp k
      else finale w1 pos cellT resp k) = some (w', k')) :
    WriteStep w1 w' T cellT.acts ∧ w'.width = w1.width ∧ w'.height = w1.height ∧
    (∀ cc, w'.entities pos = some (.cell cc) → cc.last_update_color = T) := by
  simp only [] at hrun
  set dest := facing_step cellT.facing pos
    (if ACTION_MOVE_FORWARD_CONST ≠ 0 then 1 else -1) with hdest
  have hpd : pos ≠ dest :=
    fun h => facing_step_ne_self cellT.facing pos _ (by decide) h.symm
  by_cases hb : coord_in_bounds dest w1
  case neg =>
    rw [if_neg (by simpa using hb)] at hrun
    obtain ⟨hws, hw, hh⟩ := finale_writes w1 pos cellT resp k w' k' T cellT.acts
      htag rfl hrun
    exact ⟨hws, hw, hh, finale_pos_tagged w1 pos cellT resp k w' k' T htag hrun⟩
  case pos =>
    rw [if_pos (by simpa using hb)] at hrun
    cases hde : w1.entities dest with
    | none =>
      rw [hde] at hrun
      obtain ⟨hws, hw, hh, hpos⟩ :=
        do_move_writes r w1 pos dest cellT resp k w' k' T htag hpd hrun
      exact ⟨hws, hw, hh, hpos⟩
    | some e =>
      rw [hde] at hrun
      cases e with
      | cell cc =>
        obtain ⟨hws, hw, hh⟩ := finale_writes w1 pos cellT resp k w' k' T cellT.acts
          htag rfl hrun
        exact ⟨hws, hw, hh, finale_pos_tagged w1 pos cellT resp k w' k' T htag hrun⟩
      | food fd =>
        cases hrel : relocate_food r fuel w1 dest k with
        | none => rw [hrel] at hrun; exact absurd hrun (by simp)
        | some t =>
          rw [hrel] at hrun
          obtain ⟨hws1, hww1, hhh1⟩ :=
            relocate_food_writes r fuel w1 dest k t.1 t.2 T cellT.acts hrel
          obtain ⟨hws2, hww2, hhh2, hpos⟩ :=
            do_move_writes r t.1 pos dest
              { cellT with score := cellT.score + FOOD_SCORE } resp t.2 w' k' T
              htag hpd hrun
          exact ⟨WriteStep.compose _ _ _ _ _ hws1 hws2, hww2.trans hww1,
            hhh2.trans hhh1, hpos⟩

/-- Everything a completed `cell_act` may have done to the grid: a
`WriteStep` for the pass color and the acting cell's counter, dimension
preservation, and no cell left at the source slot without the pass tag. -/
theorem cell_act_writes (r : Rand) (fuel : Nat) (w1 : World) (pos : Coord)
    (cellT : Cell) (k : Nat) (w' : World) (k' : Nat) (T : Int)
    (htag : cellT.last_update_color = T)
    (hrun : cell_act r fuel w1 pos cellT k = some (w', k')) :
    WriteStep w1 w' T cellT.acts ∧ w'.width = w1.width ∧ w'.height = w1.height ∧
    (∀ cc, w'.entities pos = some (.cell cc) → cc.last_update_color = T) := by
  simp only [cell_act] at hrun
  set resp := (cellT.chromosome.genes cellT.state).responses
    (perceive w1 pos cellT.facing) with hresp
  cases hact : resp.action with
  | turnLeft =>
    rw [hact] at hrun
    obtain ⟨hws, hw, hh⟩ := finale_writes w1 pos
      { cellT with facing := facing_turn cellT.facing (-1) } resp k w' k' T
      cellT.acts htag rfl hrun
    exact ⟨hws, hw, hh, finale_pos_tagged w1 pos
      { cellT with facing := facing_turn cellT.facing (-1) } resp k w' k' T htag hrun⟩
  | turnRight =>
    rw [hact] at hrun
    obtain ⟨hws, hw, hh⟩ := finale_writes w1 pos
      { cellT with facing := facing_turn cellT.facing 1 } resp k w' k' T
      cellT.acts htag rfl hrun
    exact ⟨hws, hw, hh, finale_pos_tagged w1 pos
      { cellT with facing := facing_turn cellT.facing 1 } resp k w' k' T htag hrun⟩
  | moveForward =>
    rw [hact] at hrun
    exact cell_act_move_writes r fuel w1 pos cellT resp k w' k' T htag hrun
  | moveBackward =>
    rw [hact] at hrun
    exact cell_act_move_writes r fuel w1 pos cellT resp k w' k' T htag hrun

/-- The values `entity_update` as a whole may place into a slot of `w`,
beyond leaving it unchanged: empty it; an entity tagged with the pass color
whose counter is either 0 (a newborn) or one more than the counter of some
entity of `w` that had not yet been processed; or a food item that already
existed somewhere in `w`. -/
def WrittenOk (w : World) (T : Int) (v : Option Entity) : Prop :=
  v = none ∨
  (∃ e', v = some e' ∧ e'.last_update_color = T ∧
    (e'.acts = 0 ∨
     ∃ i e, w.entities i = some e ∧ e.last_update_color ≠ T ∧ e'.acts = e.acts + 1)) ∨
  (∃ i f, v = some (.food f) ∧ w.entities i = some (.food f))

/-- Master write-characterisation of `entity_update`: every slot of the
result is unchanged or holds a permitted value, no cell without the pass tag
is left at the updated position, and the dimensions are preserved. -/
theorem entity_update_writes (r : Rand) (fuel : Nat) (w : World) (pos : Coord)
    (T : Int) (k : Nat) (w' : World) (k' : Nat)
    (hrun : entity_update r fuel w pos T k = some (w', k')) :
    (∀ j, w'.entities j = w.entities j ∨ WrittenOk w T (w'.entities j)) ∧
    (∀ cc, w'.entities pos = some (.cell cc) → cc.last_update_color = T) ∧
    w'.width = w.width ∧ w'.height = w.height := by
  cases hc : w.entities pos with
  | none =>
    rw [entity_update_empty r fuel w pos T k hc] at hrun
    simp only [Option.some.injEq, Prod.mk.injEq] at hrun
    obtain ⟨h1, -⟩ := hrun
    subst h1
    exact ⟨fun j => Or.inl rfl,
      fun cc hcc => absurd (hc ▸ hcc) (by simp), rfl, rfl⟩
  | some ent =>
    by_cases htg : ent.last_update_color = T
    · rw [entity_update_skip r fuel w pos T k ent hc htg] at hrun
      simp only [Option.some.injEq, Prod.mk.injEq] at hrun
      obtain ⟨h1, -⟩ := hrun
      subst h1
      refine ⟨fun j => Or.inl rfl, ?_, rfl, rfl⟩
      intro cc hcc
      rw [hc] at hcc
      have h2 := Option.some.injEq _ _ ▸ hcc
      rw [h2] at htg
      exact htg
    · cases ent with
      | food f =>
        rw [entity_update_food r fuel w pos T k f hc htg] at hrun
        simp only [Option.some.injEq, Prod.mk.injEq] at hrun
        obtain ⟨h1, -⟩ := hrun
        subst h1
        refine ⟨?_, ?_, rfl, rfl⟩
        · intro j
          by_cases hj : j = pos
          · subst hj
            rw [World.get_set_self]
            exact Or.inr (Or.inr (Or.inl ⟨_, rfl, rfl,
              Or.inr ⟨j, .food f, hc, htg, rfl⟩⟩))
          · rw [World.get_set_ne _ _ _ _ hj]
            exact Or.inl rfl
        · intro cc hcc
          rw [World.get_set_self] at hcc
          have := Option.some.injEq _ _ ▸ hcc
          exact Entity.noConfusion this
      | cell cell =>
        rw [entity_update_cell r fuel w pos T k cell hc htg] at hrun
        obtain ⟨hws, hw, hh, hpos⟩ :=
          cell_act_writes r fuel
            (w.set pos (some (.cell { cell with last_update_color := T, acts := cell.acts + 1 })))
            pos { cell with last_update_color := T, acts := cell.acts + 1 } k
            w' k' T rfl hrun
        refine ⟨?_, hpos, hw, hh⟩
        intro j
        rcases hws j with h | h
        · by_cases hj : j = pos
          · subst hj
            rw [h, World.get_set_self]
            exact Or.inr (Or.inr (Or.inl ⟨_, rfl, rfl,
              Or.inr ⟨j, .cell cell, hc, htg, rfl⟩⟩))
          · rw [h, World.get_set_ne _ _ _ _ hj]
            exact Or.inl rfl
        · rcases h with h | ⟨c', hv, ht, ha⟩ | ⟨i, fd, hv, hE⟩
          · exact Or.inr (Or.inl h)
          · rcases ha with ha | ha
            · exact Or.inr (Or.inr (Or.inl ⟨_, hv, ht, Or.inl ha⟩))
            · exact Or.inr (Or.inr (Or.inl ⟨_, hv, ht,
                Or.inr ⟨pos, .cell cell, hc, htg, ha⟩⟩))
          · by_cases hi : i = pos
            · subst hi
              rw [World.get_set_self] at hE
              have := Option.some.injEq _ _ ▸ hE
              exact absurd this (by simp)
            · rw [World.get_set_ne _ _ _ _ hi] at hE
              exact Or.inr (Or.inr (Or.inr ⟨i, fd, hv, hE⟩))

/-- Every in-bounds coordinate is visited by the row-major scan. -/
theorem mem_scan_coords_of_inb (w : World) (c : Coord)
    (h : coord_in_bounds c w = true) : c ∈ scan_coords w.width w.height := by
  obtain ⟨cx, cy⟩ := c
  simp only [coord_in_bounds, Bool.and_eq_true, decide_eq_true_eq] at h
  have hco : (⟨cx, cy⟩ : Coord) = ⟨((cx.toNat : Nat) : Int), ((cy.toNat : Nat) : Int)⟩ := by
    simp only [Coord.mk.injEq]
    constructor <;> omega
  have hy : cy.toNat ∈ List.range w.height := by
    simp only [List.mem_range]; omega
  have hx : cx.toNat ∈ List.range w.width := by
    simp only [List.mem_range]; omega
  rw [hco]
  simp only [scan_coords]
  refine List.mem_flatMap.mpr ⟨cy.toNat, hy, ?_⟩
  simp only [scan_row]
  exact List.mem_map_of_mem (fun x : Nat => (⟨Int.ofNat x, Int.ofNat cy.toNat⟩ : Coord)) hx

/-- Scanning a list of positions leaves no cell without the pass tag,
provided every untagged cell sits at a position still to be scanned. -/
theorem update_cells_no_stale (r : Rand) (fuel : Nat) (T : Int) :
    ∀ (L : List Coord) (w : World) (k : Nat) (w' : World) (k' : Nat),
      update_cells r fuel T L w k = some (w', k') →
      (∀ j cc, w.entities j = some (.cell cc) → cc.last_update_color ≠ T → j ∈ L) →
      ∀ j cc, w'.entities j = some (.cell cc) → cc.last_update_color = T := by
  intro L
  induction L with
  | nil =>
    intro w k w' k' hrun hst j cc hj
    simp only [update_cells, Option.some.injEq, Prod.mk.injEq] at hrun
    obtain ⟨h1, -⟩ := hrun
    subst h1
    by_contra hne
    exact absurd (hst j cc hj hne) (List.not_mem_nil _)
  | cons p rest ih =>
    intro w k w' k' hrun hst
    simp only [update_cells] at hrun
    cases he : entity_update r fuel w p T k with
    | none => rw [he] at hrun; exact absurd hrun (by simp)
    | some t =>
      rw [he] at hrun
      obtain ⟨hws, hpos, -, -⟩ := entity_update_writes r fuel w p T k t.1 t.2 he
      refine ih t.1 t.2 w' k' hrun ?_
      intro j cc hj hne
      rcases hws j with h | h
      · have hjw : w.entities j = some (.cell cc) := by rw [← h]; exact hj
        rcases List.mem_cons.mp (hst j cc hjw hne) with hmem | hmem
        · exact absurd (hpos cc (hmem ▸ hj)) hne
        · exact hmem
      · rcases h with h | ⟨e', hv, ht, -⟩ | ⟨i, fd, hv, -⟩
        · rw [hj] at h; exact absurd h (by simp)
        · rw [hj] at hv
          have he2 := Option.some.injEq _ _ ▸ hv
          rw [← he2] at ht
          exact absurd ht hne
        · rw [hj] at hv
          have he2 := Option.some.injEq _ _ ▸ hv
          exact Entity.noConfusion he2

/-- Scanning a list of positions preserves the counter invariant: every
entity has acted at most once, and an entity that has acted carries the pass
tag. -/
theorem update_cells_acts_inv (r : Rand) (fuel : Nat) (T : Int) :
    ∀ (L : List Coord) (w : World) (k : Nat) (w' : World) (k' : Nat),
      update_cells r fuel T L w k = some (w', k') →
      (∀ j e, w.entities j = some e →
        e.acts ≤ 1 ∧ (e.acts = 1 → e.last_update_color = T)) →
      ∀ j e, w'.entities j = some e →
        e.acts ≤ 1 ∧ (e.acts = 1 → e.last_update_color = T) := by
  intro L
  induction L with
  | nil =>
    intro w k w' k' hrun hinv
    simp only [update_cells, Option.some.injEq, Prod.mk.injEq] at hrun
    obtain ⟨h1, -⟩ := hrun
    subst h1
    exact hinv
  | cons p rest ih =>
    intro w k w' k' hrun hinv
    simp only [update_cells] at hrun
    cases he : entity_update r fuel w p T k with
    | none => rw [he] at hrun; exact absurd hrun (by simp)
    | some t =>
      rw [he] at hrun
      obtain ⟨hws, -, -, -⟩ := entity_update_writes r fuel w p T k t.1 t.2 he
      refine ih t.1 t.2 w' k' hrun ?_
      intro j e hj
      rcases hws j with h | h
      · exact hinv j e (by rw [← h]; exact hj)
      · rcases h with h | ⟨e', hv, ht, ha⟩ | ⟨i, fd, hv, hE⟩
        · rw [hj] at h; exact absurd h (by simp)
        · rw [hj] at hv
          have he2 := Option.some.injEq _ _ ▸ hv
          subst he2
          rcases ha with ha | ⟨i, eo, hE, hne, ha⟩
          · exact ⟨by omega, fun _ => ht⟩
          · have hio := hinv i eo hE
            have heo : eo.acts = 0 := by
              rcases Nat.lt_or_ge eo.acts 1 with hlt | hge
              · omega
              · exact absurd (hio.2 (by omega)) hne
            exact ⟨by omega, fun _ => ht⟩
        · rw [hj] at hv
          have he2 := Option.some.injEq _ _ ▸ hv
          subst he2
          exact hinv i _ hE

/-! Claim C2 -/

/-- Claim C2.  One tick (`update_world` with shared tag `T`) lets every
entity act at most once: starting from a world whose ghost action counters
are all 0, every entity ends the tick with counter at most 1.  Moreover an
entity whose stored tag already equals `T` is skipped outright (the world
and stream are returned unchanged), and a child born by mitosis inherits its
parent's (already stamped) update tag and a counter of 0, so it cannot act
in the tick of its birth. -/
theorem c2_at_most_one_action_per_tick (r : Rand) (fuel : Nat) (w : World)
    (T : Int) (k : Nat) (w' : World) (k' : Nat)
    (hrun : update_world r fuel w T k = some (w', k'))
    (hz : ∀ j e, w.entities j = some e → e.acts = 0) :
    (∀ j e, w'.entities j = some e → e.acts ≤ 1) ∧
    (∀ pos ent, w.entities pos = some ent → ent.last_update_color = T →
        entity_update r fuel w pos T k = some (w, k)) ∧
    (∀ (p : Cell) (kk fc : Nat),
        (cell_new r (some p) kk fc).1.last_update_color = p.last_update_color ∧
        (cell_new r (some p) kk fc).1.acts = 0) := by
  refine ⟨?_, ?_, ?_⟩
  · have hinv := update_cells_acts_inv r fuel T
      (scan_coords w.width w.height) w k w' k' hrun
      (fun j e hj => ⟨by rw [hz j e hj]; decide,
        fun h1 => by rw [hz j e hj] at h1; exact absurd h1 (by decide)⟩)
    exact fun j e hj => (hinv j e hj).1
  · intro pos ent h ht
    exact entity_update_skip r fuel w pos T k ent h ht
  · intro p kk fc
    exact ⟨rfl, rfl⟩

/-- Witness for the C2 theorem, on the concrete tick of `world2`. -/
theorem c2_witness :
    ∃ p, update_world r1 10 world2 1 0 = some p ∧
      ((∀ j e, p.1.entities j = some e → e.acts ≤ 1) ∧
       (∀ pos ent, world2.entities pos = some ent → ent.last_update_color = 1 →
           entity_update r1 10 world2 pos 1 0 = some (world2, 0)) ∧
       (∀ (q : Cell) (kk fc : Nat),
           (cell_new r1 (some q) kk fc).1.last_update_color = q.last_update_color ∧
           (cell_new r1 (some q) kk fc).1.acts = 0)) := by
  refine ⟨_, rfl, ?_⟩
  refine c2_at_most_one_action_per_tick r1 10 world2 1 0 _ _ rfl ?_
  intro j e hj
  simp only [world2] at hj
  split at hj
  · have h2 := Option.some.injEq _ _ ▸ hj
    rw [← h2]
    rfl
  · split at hj
    · have h2 := Option.some.injEq _ _ ▸ hj
      rw [← h2]
      rfl
    · exact Option.noConfusion hj

/-! Claim C7, amended theorem -/

/-- Claim C7 as amended.  After one full tick with pass color `T`, every
cell in the resulting grid carries tag `T` — assuming the starting world
keeps its untagged cells inside the board, which the scan covers.  (Food
relocated during the pass may keep the previous tick's tag, as the
counterexample shows, which is why the amended claim speaks of cells.) -/
theorem c7_all_cells_tagged (r : Rand) (fuel : Nat) (w : World) (T : Int)
    (k : Nat) (w' : World) (k' : Nat)
    (hrun : update_world r fuel w T k = some (w', k'))
    (hin : ∀ j cc, w.entities j = some (.cell cc) → cc.last_update_color ≠ T →
        coord_in_bounds j w = true) :
    ∀ j cc, w'.entities j = some (.cell cc) → cc.last_update_color = T :=
  update_cells_no_stale r fuel T (scan_coords w.width w.height) w k w' k' hrun
    (fun j cc hj hne => mem_scan_coords_of_inb w j (hin j cc hj hne))

/-- Witness for the amended C7 theorem, on the concrete tick of `world2`. -/
theorem c7_all_cells_tagged_witness :
    ∃ p, update_world r1 10 world2 1 0 = some p ∧
      ∀ j cc, p.1.entities j = some (.cell cc) → cc.last_update_color = 1 := by
  refine ⟨_, rfl, ?_⟩
  refine c7_all_cells_tagged r1 10 world2 1 0 _ _ rfl ?_
  intro j cc hj hne
  simp only [world2] at hj
  split at hj
  case isTrue h => subst h; decide
  case isFalse h =>
    split at hj
    · exact absurd (Option.some.injEq _ _ ▸ hj) (by simp)
    · exact Option.noConfusion hj

/-! Claim C1 -/

/-- Claim C1, evaluation at the failing input.  In `world1` the cell at
(0, 1) faces north, sees EMPTY ahead, and its chromosome answers with
MOVE_FORWARD; yet after its update the cell sits at (0, 2) — one step
*backward* — and the forward slot (0, 0) is still empty, because the move
destination is computed from the constant-condition ternary
`ACTION_MOVE_FORWARD ? 1 : -1`, i.e. always a -1 step.  This refutes the
claim that the step direction is resolved by the Action value. -/
theorem c1_moveForward_steps_backward :
    ((testCell.chromosome.genes testCell.state).responses
        (perceive world1 ⟨0, 1⟩ testCell.facing)).action = Action.moveForward ∧
    (entity_update r1 10 world1 ⟨0, 1⟩ 1 0).map
        (fun t => (cell_at t.1 ⟨0, 0⟩, cell_at t.1 ⟨0, 1⟩, cell_at t.1 ⟨0, 2⟩)) =
      some (false, false, true) := by
  decide

/-! Claim C3 -/

/-- Claim C3, evaluation at the failing input.  In `world3` the cell at
(0, 1) faces the food at (0, 0), so the perceived situation is FOOD and the
looked-up response is MOVE_FORWARD; but the cell's score afterwards is
100 - 8 = 92 — no 250-point food credit — and the food is still at (0, 0),
unrelocated, because the move destination is the backward slot (0, 2).  This
refutes the eats-the-faced-food part of the claim. -/
theorem c3_faced_food_not_eaten :
    perceive world3 ⟨0, 1⟩ testCell.facing = Situation.food ∧
    ((testCell.chromosome.genes testCell.state).responses Situation.food).action =
      Action.moveForward ∧
    (entity_update r1 10 world3 ⟨0, 1⟩ 1 0).map
        (fun t => (score_at t.1 ⟨0, 2⟩, food_at t.1 ⟨0, 0⟩, cell_at t.1 ⟨0, 1⟩)) =
      some (some 92, true, false) := by
  decide

/-! Claim C6 -/

/-- Claim C6, counterexample.  The claim says state 15 responds with
(TurnLeft, 0) to every situation except Food; but for LIFE the stored
response is (MOVE_FORWARD, 0), because the C initializer of gene 15 only
lists a response for slot 0 and zero-initialises the rest (and
ACTION_MOVE_FORWARD = 0). -/
theorem c6_state15_life_not_turn_left :
    (chromosome_big_square.genes 15).responses Situation.life ≠
      ⟨Action.turnLeft, 0⟩ := by
  decide

/-- Claim C6 as amended: the full response table of the seed chromosome.
States 0..14 answer Empty and Food with (MoveForward, state+1) and Life and
Wall with (TurnLeft, 0); state 15 answers Empty with (TurnLeft, 0), Food
with (MoveForward, 15), and Life and Wall with (MoveForward, 0). -/
theorem c6_seed_chromosome_table :
    ∀ (g : Fin 16) (s : Situation),
      ((chromosome_big_square.genes g).responses s).action =
        (if g.val < 15 then
          match s with
          | .empty => Action.moveForward
          | .food => Action.moveForward
          | .life => Action.turnLeft
          | .wall => Action.turnLeft
        else
          match s with
          | .empty => Action.turnLeft
          | .food => Action.moveForward
          | .life => Action.moveForward
          | .wall => Action.moveForward) ∧
      ((chromosome_big_square.genes g).responses s).next_state.val =
        (if g.val < 15 then
          match s with
          | .empty => g.val + 1
          | .food => g.val + 1
          | .life => 0
          | .wall => 0
        else
          match s with
          | .empty => 0
          | .food => 15
          | .life => 0
          | .wall => 0) := by
  decide

/-! Claim C7, counterexample -/

/-- Claim C7, counterexample.  Run one full tick of `world2` with pass color
1: the cell at (0, 1) sees EMPTY ahead, moves backward onto the food at
(0, 2), eats it, and the relocation drops the food at (0, 0) — a slot the
row-major scan has already passed.  After the tick completes, that food is
still tagged 0, not the pass color 1: not every entity's update tag equals
the tick's color. -/
theorem c7_relocated_food_keeps_stale_tag :
    (update_world r1 10 world2 1 0).map
        (fun t => (food_at t.1 ⟨0, 0⟩, tag_at t.1 ⟨0, 0⟩)) = some (true, some 0) ∧
    (0 : Int) ≠ 1 := by
  decide

/-! Claim C9 -/

/-- Claim C9, evaluation at the failing input.  Build a 1-by-1 world with a
stream on which every mutation fires.  The distinguished ancestor cell at the
center slot keeps the color computed by `cell_new` from the *mutated* seed
chromosome (here 0), but the chromosome it actually carries is overwritten
with the unmutated `chromosome_big_square`, whose fingerprint is 4256784:
the stored color is not the fingerprint of the carried chromosome. -/
theorem c9_ancestor_color_stale :
    (world_new r9 5 1 1 0 0).map
        (fun t => (stored_color_at t.1 ⟨0, 0⟩, carried_color_at t.1 ⟨0, 0⟩)) =
      some (some 0, some 4256784) ∧ (0 : Nat) ≠ 4256784 := by
  decide

end Gasim
